import Mathlib

/-!
Verification development for the SATISH image format codec
(`satish/core/format.py`, `encoder.py`, `decoder.py`, `validator.py`).

The Python source is shallowly embedded: files are `List Nat` of byte
values, Python `str` values are `List Char`, Python exceptions become an
explicit error inductive (`Satish.Err`) whose constructors carry exactly
the data interpolated into the corresponding Python exception message, and
file I/O is abstracted by passing a file's byte content directly.
-/

deriving instance DecidableEq for Except

namespace Satish

/-- Pixel components are Python ints; a pixel is an `(R, G, B)` triple
(`Tuple[int, int, int]` in the source). -/
abbrev Pixel := Int × Int × Int

/-- `SatishHeader` named tuple from `format.py`: magic is a 4-byte string
(`bytes` in Python, modelled as a list of byte values). -/
structure SatishHeader where
  magic : List Nat
  width : Nat
  height : Nat
  channels : Nat
  version : Nat
deriving DecidableEq, Repr

/-- Python exceptions raised by the embedded code.  Each constructor
corresponds to one `raise` site and carries the values interpolated into
that site's message string.  The class of each exception (per
`utils/exceptions.py`, where `PixelDataError` subclasses
`InvalidFormatError` while `EncodingError`/`DecodingError` are siblings of
it under `SatishError`) is recorded by `Err.isInvalidFormatError` below. -/
inductive Err where
  /-- `create_header`: "Width must be between 1 and 65535, got w" -/
  | widthOutOfRange (w : Nat)
  /-- `create_header`: "Height must be between 1 and 65535, got h" -/
  | heightOutOfRange (hgt : Nat)
  /-- `create_header`: "Unsupported channels: c. Supported: [3]" -/
  | unsupportedChannelsCreate (c : Nat)
  /-- `create_header`: "Version must be >= 1, got v" -/
  | versionTooSmall (v : Nat)
  /-- `unpack_header`: "Header too short: expected 10 bytes, got n" -/
  | headerTooShort (expected got : Nat)
  /-- `unpack_header`: "Invalid magic bytes: expected b'SATI', got m" -/
  | invalidMagicBytes (expected got : List Nat)
  /-- `_validate_header`: "Invalid magic bytes: m" -/
  | invalidMagicHdr (got : List Nat)
  /-- `_validate_header`: "Invalid width: w" -/
  | invalidWidth (w : Nat)
  /-- `_validate_header`: "Invalid height: h" -/
  | invalidHeight (hgt : Nat)
  /-- `_validate_header`: "Unsupported channels: c" -/
  | unsupportedChannels (c : Nat)
  /-- `_validate_header`: "Invalid version: v" -/
  | invalidVersion (v : Nat)
  /-- decoder `_load_satish_file`: "Pixel data size mismatch: expected e, got g" -/
  | pixelSizeMismatch (expected got : Nat)
  /-- decoder `_parse_pixel_data`: "Invalid hex color length: s" -/
  | invalidHexLength (s : List Char)
  /-- decoder `_hex_to_rgb`: "Invalid hex color: s" -/
  | invalidHexColor (s : List Char)
  /-- decoder `_load_satish_file`: "Pixel count mismatch: expected e, got g" -/
  | pixelCountMismatch (expected got : Nat)
  /-- `UnicodeDecodeError` from `bytes.decode("ascii")` on a byte ≥ 128 -/
  | nonAsciiData
  /-- validator `_validate_pixel_data`: `PixelDataError` "Pixel data size
  mismatch: expected e, got g" -/
  | pixelDataSizeMismatchV (expected got : Nat)
  /-- validator `_validate_pixel_data`: `PixelDataError` "Pixel data
  contains non-ASCII characters" -/
  | nonAsciiDataV
  /-- `encode_from_array`: `EncodingError` "Pixel array size mismatch:
  expected e, got g" -/
  | arraySizeMismatch (expected got : Nat)
  /-- `DecodingError` wrapper: "Failed to ...: str(cause)" -/
  | decodingFailed (cause : Err)
  /-- `EncodingError` wrapper: "Failed to encode pixel array: str(cause)" -/
  | encodingFailed (cause : Err)
deriving DecidableEq, Repr

/-- Whether the modelled Python exception is an instance of
`InvalidFormatError` (including its subclasses `PixelDataError`,
`HeaderError`, `DimensionError`, `UnsupportedVersionError` per
`utils/exceptions.py`).  `EncodingError`, `DecodingError` and
`UnicodeDecodeError` are not. -/
def Err.isInvalidFormatError : Err → Bool
  | .nonAsciiData => false
  | .arraySizeMismatch _ _ => false
  | .decodingFailed _ => false
  | .encodingFailed _ => false
  | _ => true

namespace SatishFormat

/-- `MAGIC_BYTES = b"SATI"` (byte values of S, A, T, I). -/
def MAGIC_BYTES : List Nat := [83, 65, 84, 73]

def CURRENT_VERSION : Nat := 1

def HEADER_SIZE : Nat := 10

def MAX_WIDTH : Nat := 65535

def MAX_HEIGHT : Nat := 65535

def HEX_CHARS_PER_PIXEL : Nat := 6

/-- `SatishFormat.create_header` (format.py:48-75): validates each field
before constructing the header; the error constructor records which field
failed and with what value, exactly the data in the Python message.
`SUPPORTED_CHANNELS = {3: "RGB"}`, so the channels test `channels not in
cls.SUPPORTED_CHANNELS` is `channels ≠ 3`. -/
def create_header (width height channels version : Nat) : Except Err SatishHeader :=
  if ¬(1 ≤ width ∧ width ≤ MAX_WIDTH) then .error (.widthOutOfRange width)
  else if ¬(1 ≤ height ∧ height ≤ MAX_HEIGHT) then .error (.heightOutOfRange height)
  else if channels ≠ 3 then .error (.unsupportedChannelsCreate channels)
  else if version < 1 then .error (.versionTooSmall version)
  else .ok ⟨MAGIC_BYTES, width, height, channels, version⟩

/-- `SatishFormat.pack_header` (format.py:77-86): magic, then
`struct.pack(">H", width)`, `struct.pack(">H", height)` (big-endian
16-bit), then channels and version bytes.  (`struct.pack` would raise for
fields out of 16-bit or 8-bit range; every header packed in this
development is produced by `create_header` and in range.) -/
def pack_header (h : SatishHeader) : List Nat :=
  h.magic ++ [h.width / 256, h.width % 256, h.height / 256, h.height % 256,
    h.channels, h.version]

/-- `SatishFormat._validate_header` (format.py:110-126). -/
def validate_header_fmt (h : SatishHeader) : Except Err Unit :=
  if h.magic ≠ MAGIC_BYTES then .error (.invalidMagicHdr h.magic)
  else if ¬(1 ≤ h.width ∧ h.width ≤ MAX_WIDTH) then .error (.invalidWidth h.width)
  else if ¬(1 ≤ h.height ∧ h.height ≤ MAX_HEIGHT) then .error (.invalidHeight h.height)
  else if h.channels ≠ 3 then .error (.unsupportedChannels h.channels)
  else if h.version < 1 then .error (.invalidVersion h.version)
  else .ok ()

/-- `SatishFormat.unpack_header` (format.py:88-108): length check, magic
check, big-endian field extraction (`struct.unpack(">H", data[4:6])` is
`data[4] * 256 + data[5]`), then `_validate_header`. -/
def unpack_header (data : List Nat) : Except Err SatishHeader :=
  if data.length < HEADER_SIZE then .error (.headerTooShort HEADER_SIZE data.length)
  else
    let magic := data.take 4
    if magic ≠ MAGIC_BYTES then .error (.invalidMagicBytes MAGIC_BYTES magic)
    else
      let width := data.getD 4 0 * 256 + data.getD 5 0
      let height := data.getD 6 0 * 256 + data.getD 7 0
      let channels := data.getD 8 0
      let version := data.getD 9 0
      let header : SatishHeader := ⟨magic, width, height, channels, version⟩
      match validate_header_fmt header with
      | .error e => .error e
      | .ok _ => .ok header

/-- `SatishFormat.calculate_pixel_data_size` (format.py:128-132):
`width * height * HEX_CHARS_PER_PIXEL`; the `channels` argument is
accepted but unused. -/
def calculate_pixel_data_size (width height channels : Nat) : Nat :=
  width * height * HEX_CHARS_PER_PIXEL

end SatishFormat

/-- ASCII code of a hex digit value (`0`-`9` then `a`-`f`), as produced by
Python lowercase `x` formatting. -/
def hexDigitChar (n : Nat) : Char :=
  if n < 10 then Char.ofNat (48 + n) else Char.ofNat (87 + n)

/-- Repeated-divmod digits of `n` in base 16, most significant first,
`"0"` for 0 (fuel-based so that the kernel can evaluate it; fuel `n + 1`
always suffices since the argument is divided by 16 each step). -/
def natToHexAux : Nat → Nat → List Char → List Char
  | 0, _, acc => acc
  | fuel + 1, n, acc =>
    let acc2 := hexDigitChar (n % 16) :: acc
    if n < 16 then acc2 else natToHexAux fuel (n / 16) acc2

/-- Lowercase hex rendering of a natural number, no prefix, no padding. -/
def natToHex (n : Nat) : List Char :=
  natToHexAux (n + 1) n []

/-- Python `f"{v:02x}"`: lowercase hex, zero-padded to a minimum total
width of 2 (the sign counts toward the width, so a negative value of
magnitude below 16 renders as the sign plus one digit). -/
def fmt02x (v : Int) : List Char :=
  if v < 0 then Char.ofNat 45 :: natToHex v.natAbs
  else
    let s := natToHex v.toNat
    if s.length < 2 then Char.ofNat 48 :: s else s

/-- Python whitespace stripped by `int(s, 16)` (ASCII portion: tab,
newline, vertical tab, form feed, carriage return, file/group/record/unit
separators, space). -/
def isPySpace (c : Char) : Bool :=
  decide (c.toNat = 32 ∨ (9 ≤ c.toNat ∧ c.toNat ≤ 13) ∨ (28 ≤ c.toNat ∧ c.toNat ≤ 31))

/-- `s.strip()` as performed by Python `int`: drop whitespace from both
ends. -/
def stripWS (s : List Char) : List Char :=
  ((s.dropWhile isPySpace).reverse.dropWhile isPySpace).reverse

/-- Value of one hex digit character (`0-9`, `a-f`, `A-F`), or `none`. -/
def hexVal (c : Char) : Option Nat :=
  if 48 ≤ c.toNat ∧ c.toNat ≤ 57 then some (c.toNat - 48)
  else if 97 ≤ c.toNat ∧ c.toNat ≤ 102 then some (c.toNat - 87)
  else if 65 ≤ c.toNat ∧ c.toNat ≤ 70 then some (c.toNat - 55)
  else none

/-- Digits after the first one in a Python base-16 literal: a single
underscore (code 95) is allowed between digits, never trailing or
doubled. -/
def parseHexTail : Nat → List Char → Option Nat
  | acc, [] => some acc
  | acc, c :: rest =>
    if c.toNat = 95 then
      match rest with
      | [] => none
      | d :: rest2 =>
        match hexVal d with
        | none => none
        | some v => parseHexTail (acc * 16 + v) rest2
    else
      match hexVal c with
      | none => none
      | some v => parseHexTail (acc * 16 + v) rest

/-- A nonempty run of hex digits (with internal underscores); the first
character must be a digit. -/
def parseHexSeq (s : List Char) : Option Nat :=
  match s with
  | [] => none
  | c :: rest =>
    match hexVal c with
    | none => none
    | some v => parseHexTail v rest

/-- Python `int(s, 16)`: strip whitespace, optional sign (`+` 43 / `-`
45), optional `0x`/`0X` prefix (after which one underscore may appear),
then hex digits with underscore separators; `none` models `ValueError`. -/
def pyInt16 (s : List Char) : Option Int :=
  let t := stripWS s
  let signAndRest : Int × List Char :=
    match t with
    | c :: rest =>
      if c.toNat = 43 then (1, rest)
      else if c.toNat = 45 then (-1, rest)
      else (1, t)
    | [] => (1, [])
  let t2 : List Char :=
    match signAndRest.2 with
    | c0 :: c1 :: rest =>
      if c0.toNat = 48 ∧ (c1.toNat = 120 ∨ c1.toNat = 88) then
        match rest with
        | c2 :: rest2 => if c2.toNat = 95 then rest2 else rest
        | [] => []
      else c0 :: c1 :: rest
    | l => l
  match parseHexSeq t2 with
  | none => none
  | some v => some (signAndRest.1 * v)

/-- `bytes.decode("ascii")`: succeeds exactly when every byte is below
128, yielding the corresponding characters. -/
def pyAsciiDecode (bs : List Nat) : Option (List Char) :=
  if bs.all (fun b => b < 128) then some (bs.map Char.ofNat) else none

namespace SatishEncoder

/-- One pixel of `SatishEncoder._convert_pixels_to_hex` (encoder.py:168-176):
`f"{r:02x}{g:02x}{b:02x}"`. -/
def pixel_to_hex (p : Pixel) : List Char :=
  fmt02x p.1 ++ fmt02x p.2.1 ++ fmt02x p.2.2

/-- `SatishEncoder._convert_pixels_to_hex` over the whole list.  (Its
`except` clause guards against elements that do not unpack into three
components; in this typed embedding every element is a triple, so
formatting is total.) -/
def convert_pixels_to_hex (pixels : List Pixel) : List (List Char) :=
  pixels.map pixel_to_hex

/-- `SatishEncoder.encode_from_array` (encoder.py:105-144) composed with
`_write_satish_file` (encoder.py:178-192), returning the bytes written:
pixel-count check, `create_header(width, height, channels=3)`, hex
conversion, then header bytes followed by `"".join(hex_pixels).encode("ascii")`
(hex output is ASCII by construction).  Any exception is re-raised as
`EncodingError` ("Failed to encode pixel array: ..."), modelled by the
`Err.encodingFailed` wrapper. -/
def encode_from_array (pixels : List Pixel) (width height : Nat) :
    Except Err (List Nat) :=
  let expected := width * height
  if pixels.length ≠ expected then
    .error (.encodingFailed (.arraySizeMismatch expected pixels.length))
  else
    match SatishFormat.create_header width height 3 SatishFormat.CURRENT_VERSION with
    | .error e => .error (.encodingFailed e)
    | .ok header =>
      .ok (SatishFormat.pack_header header ++
        ((convert_pixels_to_hex pixels).flatten.map Char.toNat))

end SatishEncoder

namespace SatishDecoder

/-- `SatishDecoder._hex_to_rgb` (decoder.py:279-284):
`tuple(int(hex_color[i:i+2], 16) for i in (0, 2, 4))`; a `ValueError`
from any slice becomes `InvalidFormatError` "Invalid hex color: s". -/
def hex_to_rgb (s : List Char) : Except Err Pixel :=
  match pyInt16 (s.take 2), pyInt16 ((s.drop 2).take 2), pyInt16 ((s.drop 4).take 2) with
  | some r, some g, some b => .ok (r, g, b)
  | _, _, _ => .error (.invalidHexColor s)

/-- Loop body of `SatishDecoder._parse_pixel_data` (decoder.py:259-277):
`for i in range(0, len(raw), 6)` take the 6-character slice, fail on a
short slice or a bad hex group, else accumulate.  Fuel-based with fuel at
least the string length (the loop advances 6 characters per step and the
fuel one, so fuel never runs out). -/
def parse_groups : Nat → List Char → Except Err (List Pixel)
  | _, [] => .ok []
  | 0, _ :: _ => .ok []
  | fuel + 1, s@(_ :: _) =>
    let chunk := s.take 6
    if chunk.length ≠ 6 then .error (.invalidHexLength chunk)
    else
      match hex_to_rgb chunk with
      | .error e => .error e
      | .ok p =>
        match parse_groups fuel (s.drop 6) with
        | .error e => .error e
        | .ok ps => .ok (p :: ps)

/-- `SatishDecoder._parse_pixel_data`: the group loop, with every
exception caught and re-raised as `DecodingError` ("Failed to parse pixel
data: ..."), modelled by the `Err.decodingFailed` wrapper. -/
def parse_pixel_data (s : List Char) : Except Err (List Pixel) :=
  match parse_groups s.length s with
  | .error e => .error (.decodingFailed e)
  | .ok ps => .ok ps

/-- `SatishDecoder._load_satish_file` (decoder.py:219-257) on the file's
byte content: read the first `HEADER_SIZE` bytes and unpack, decode the
remainder as ASCII (a `UnicodeDecodeError` is neither `InvalidFormatError`
nor `DecodingError`, so the outer handler wraps it in `DecodingError`),
check the pixel-data size, parse the groups, check the pixel count.
`InvalidFormatError` and `DecodingError` propagate unchanged. -/
def load_satish_file (data : List Nat) : Except Err (SatishHeader × List Pixel) :=
  match SatishFormat.unpack_header (data.take SatishFormat.HEADER_SIZE) with
  | .error e => .error e
  | .ok header =>
    match pyAsciiDecode (data.drop SatishFormat.HEADER_SIZE) with
    | none => .error (.decodingFailed .nonAsciiData)
    | some pixelDataRaw =>
      let expected := SatishFormat.calculate_pixel_data_size header.width
        header.height header.channels
      if pixelDataRaw.length ≠ expected then
        .error (.pixelSizeMismatch expected pixelDataRaw.length)
      else
        match parse_pixel_data pixelDataRaw with
        | .error e => .error e
        | .ok pixels =>
          let expectedPixels := header.width * header.height
          if pixels.length ≠ expectedPixels then
            .error (.pixelCountMismatch expectedPixels pixels.length)
          else .ok (header, pixels)

end SatishDecoder

namespace SatishValidator

/-- Entries of `validate_hex_string`'s error list (validator.py:197-227),
carrying the data of the corresponding message. -/
inductive HexVErr where
  /-- "Invalid hex string length: expected e, got g" -/
  | badLength (expected got : Nat)
  /-- "Invalid hex characters in: s" -/
  | badChars (s : List Char)
deriving DecidableEq, Repr

/-- Warnings appended to a validation result. -/
inductive VWarn where
  /-- `_validate_file_extension`: "Unexpected file extension" -/
  | unexpectedExtension
  /-- `_validate_file_structure`: "Pixel data size not aligned to pixel
  boundaries" -/
  | misalignedPixelData
deriving DecidableEq, Repr

/-- Errors appended to a validation result, one constructor per append
site, carrying the data of the message. -/
inductive VErr where
  /-- `_validate_file_access`: "File too small: n bytes (minimum: 10)" -/
  | fileTooSmall (size minSize : Nat)
  /-- `_validate_file_structure`: "File too small for valid SATISH format" -/
  | fileTooSmallStructure
  /-- `_validate_header` (validator): "Header validation failed: str(e)" -/
  | headerValidationFailed (e : Err)
  /-- `validate_header_data`: "Invalid magic bytes: m" -/
  | invalidMagic (m : List Nat)
  /-- `validate_header_data`: "Invalid width: w" -/
  | invalidWidth (w : Nat)
  /-- `validate_header_data`: "Invalid height: h" -/
  | invalidHeight (hgt : Nat)
  /-- `validate_header_data`: "Unsupported channels: c" -/
  | unsupportedChannels (c : Nat)
  /-- `validate_header_data`: "Invalid version: v" -/
  | invalidVersion (v : Nat)
  /-- `validate_header_data`: "Unsupported version: v (current: cur)" -/
  | unsupportedVersion (v current : Nat)
  /-- `_validate_pixel_data`: "Pixel i: e" for each hex error `e` -/
  | pixelHexError (pixelIndex : Nat) (e : HexVErr)
  /-- outer handler of `validate_file`: "Validation failed: str(e)" -/
  | validationFailed (e : Err)
  /-- `_validate_integrity`: "File size mismatch: expected e, got g" -/
  | fileSizeMismatch (expected actual : Nat)
deriving DecidableEq, Repr

/-- The `info` diagnostic mapping of a validation result, with the keys
the stages can set (all initially absent). -/
structure VInfo where
  file_size : Option Nat
  header : Option SatishHeader
  pixel_data_size : Option Nat
  pixel_count : Option Nat
  integrity : Option (Nat × Nat × Bool)
deriving DecidableEq, Repr

def VInfo.empty : VInfo := ⟨none, none, none, none, none⟩

/-- The result dictionary built by `validate_file` (validator.py:41-47). -/
structure VResult where
  valid : Bool
  errors : List VErr
  warnings : List VWarn
  info : VInfo
deriving DecidableEq, Repr

/-- `SatishValidator.validate_header_data` (validator.py:118-154): checks
magic, width, height, channels, version lower bound, version upper bound
in order, accumulating errors. -/
def validate_header_data (h : SatishHeader) : List VErr :=
  (if h.magic ≠ SatishFormat.MAGIC_BYTES then [.invalidMagic h.magic] else []) ++
  (if ¬(1 ≤ h.width ∧ h.width ≤ SatishFormat.MAX_WIDTH) then [.invalidWidth h.width] else []) ++
  (if ¬(1 ≤ h.height ∧ h.height ≤ SatishFormat.MAX_HEIGHT) then [.invalidHeight h.height] else []) ++
  (if h.channels ≠ 3 then [.unsupportedChannels h.channels] else []) ++
  (if h.version < 1 then [.invalidVersion h.version] else []) ++
  (if h.version > SatishFormat.CURRENT_VERSION then
    [.unsupportedVersion h.version SatishFormat.CURRENT_VERSION] else [])

/-- `SatishValidator.validate_hex_string` (validator.py:197-227): length
check against the expected length (the validator always calls it with the
default, 6), then `int(hex_string, 16)`. -/
def validate_hex_string (s : List Char) (expectedLength : Nat) : List HexVErr :=
  (if s.length ≠ expectedLength then [.badLength expectedLength s.length] else []) ++
  (match pyInt16 s with
  | none => [.badChars s]
  | some _ => [])

/-- Sampling loop of `_validate_pixel_data` (validator.py:350-357): walk
the sample in 6-character slices; a full slice with hex errors is reported
with its pixel index (`i // 6`) and stops the loop; short slices are
skipped.  Fuel-based (the sample length bounds the number of steps). -/
def scan_chunks : Nat → Nat → List Char → Option (Nat × List HexVErr)
  | _, _, [] => none
  | 0, _, _ :: _ => none
  | fuel + 1, idx, s@(_ :: _) =>
    let chunk := s.take 6
    if chunk.length = 6 then
      match validate_hex_string chunk 6 with
      | [] => scan_chunks fuel (idx + 1) (s.drop 6)
      | errs => some (idx, errs)
    else scan_chunks fuel (idx + 1) (s.drop 6)

/-- Stage 1, `_validate_file_access` (validator.py:229-252): existence,
regular-file and readability checks are abstracted as passing (the file's
content is given); stores the file size and reports it if below
`HEADER_SIZE`. -/
def accessStage (data : List Nat) (r : VResult) : VResult :=
  let r2 := { r with info := { r.info with file_size := some data.length } }
  if data.length < SatishFormat.HEADER_SIZE then
    { r2 with errors := r2.errors ++ [.fileTooSmall data.length SatishFormat.HEADER_SIZE] }
  else r2

/-- Stage 2, `_validate_file_extension` (validator.py:254-261): the path's
suffix is abstracted to the flag `extOk`; a wrong suffix is only a
warning. -/
def extensionStage (extOk : Bool) (r : VResult) : VResult :=
  if extOk then r else { r with warnings := r.warnings ++ [.unexpectedExtension] }

/-- Stage 3, `_validate_file_structure` (validator.py:263-283): size
check, then a warning if the remainder is not a multiple of
`HEX_CHARS_PER_PIXEL`. -/
def structureStage (data : List Nat) (r : VResult) : VResult :=
  if data.length < SatishFormat.HEADER_SIZE then
    { r with errors := r.errors ++ [.fileTooSmallStructure] }
  else if (data.length - SatishFormat.HEADER_SIZE) % SatishFormat.HEX_CHARS_PER_PIXEL ≠ 0 then
    { r with warnings := r.warnings ++ [.misalignedPixelData] }
  else r

/-- Stage 4, `_validate_header` (validator.py:285-317): unpack the first
`HEADER_SIZE` bytes (an unpack exception is converted to the error entry
"Header validation failed: ..." and `None` is returned), then collect
`validate_header_data` errors and store the header snapshot; the header is
returned only when it produced no errors.  (`validate_file` only reaches
this stage on files of at least `HEADER_SIZE` bytes, so the incomplete
header `HeaderError` path is unreachable.) -/
def headerStage (data : List Nat) (r : VResult) : Option SatishHeader × VResult :=
  match SatishFormat.unpack_header (data.take SatishFormat.HEADER_SIZE) with
  | .error e => (none, { r with errors := r.errors ++ [.headerValidationFailed e] })
  | .ok header =>
    let hdrErrs := validate_header_data header
    let r2 := { r with errors := r.errors ++ hdrErrs,
                       info := { r.info with header := some header } }
    (if hdrErrs = [] then some header else none, r2)

/-- Stage 5, `_validate_pixel_data` (validator.py:319-367): size check
(`PixelDataError` raised and re-raised on mismatch — modelled by the
`.error` branch, which carries the result state at the raise), ASCII
decode (same), then hex sampling over the first `min(len, 60)` characters
(the first 10 pixel groups) recording "Pixel i: ..." errors, and the
`pixel_data_size` / `pixel_count` info entries. -/
def pixelDataStage (data : List Nat) (header : SatishHeader) (r : VResult) :
    Except (Err × VResult) VResult :=
  let pixelDataRaw := data.drop SatishFormat.HEADER_SIZE
  let expected := SatishFormat.calculate_pixel_data_size header.width
    header.height header.channels
  if pixelDataRaw.length ≠ expected then
    .error (.pixelDataSizeMismatchV expected pixelDataRaw.length, r)
  else
    match pyAsciiDecode pixelDataRaw with
    | none => .error (.nonAsciiDataV, r)
    | some pixelHex =>
      let sampleHex := pixelHex.take 60
      let r2 :=
        match scan_chunks sampleHex.length 0 sampleHex with
        | some (idx, errs) =>
          { r with errors := r.errors ++ errs.map (fun e => VErr.pixelHexError idx e) }
        | none => r
      .ok { r2 with info := { r2.info with
              pixel_data_size := some pixelDataRaw.length,
              pixel_count := some (header.width * header.height) } }

/-- Stage 6, `_validate_integrity` (validator.py:369-393): compare
`HEADER_SIZE + calculate_pixel_data_size(...)` with the stored file size
(always set by stage 1). -/
def integrityStage (header : SatishHeader) (r : VResult) : VResult :=
  let expectedFileSize := SatishFormat.HEADER_SIZE +
    SatishFormat.calculate_pixel_data_size header.width header.height header.channels
  let actual := r.info.file_size.getD 0
  let r2 :=
    if expectedFileSize ≠ actual then
      { r with errors := r.errors ++ [.fileSizeMismatch expectedFileSize actual] }
    else r
  { r2 with info := { r2.info with
      integrity := some (expectedFileSize, actual, expectedFileSize == actual) } }

/-- `SatishValidator.validate_file` (validator.py:28-79) on the file's
byte content: runs the stages in order; stops after stage 1 if it errored;
stops after stage 4 if no header was obtained; an exception raised by
stage 5 is caught by the outer handler, which appends "Validation failed:
str(e)" and returns (leaving `valid` false); otherwise `valid` is set to
whether the error list is empty. -/
def validate_file (extOk : Bool) (data : List Nat) : VResult :=
  let r0 : VResult := ⟨false, [], [], VInfo.empty⟩
  let r1 := accessStage data r0
  if r1.errors ≠ [] then r1
  else
    let r2 := extensionStage extOk r1
    let r3 := structureStage data r2
    match headerStage data r3 with
    | (none, r4) => r4
    | (some header, r4) =>
      match pixelDataStage data header r4 with
      | .error (e, r5) => { r5 with errors := r5.errors ++ [.validationFailed e] }
      | .ok r5 =>
        let r6 := integrityStage header r5
        { r6 with valid := r6.errors.isEmpty }

end SatishValidator

/-! ## Helper lemmas -/

/-- Characters `0`-`9` and `a`-`f`: the alphabet of the pixel-data
section. -/
def isLowerHexDigit (c : Char) : Bool :=
  decide ((48 ≤ c.toNat ∧ c.toNat ≤ 57) ∨ (97 ≤ c.toNat ∧ c.toNat ≤ 102))

theorem toNat_lt_of_lowerHex {c : Char} (h : isLowerHexDigit c = true) :
    c.toNat < 128 := by
  simp only [isLowerHexDigit, decide_eq_true_eq] at h
  omega

theorem hexVal_isSome_of_lowerHex {c : Char} (h : isLowerHexDigit c = true) :
    ∃ v, hexVal c = some v := by
  simp only [isLowerHexDigit, decide_eq_true_eq] at h
  unfold hexVal
  rcases h with h | h
  · exact ⟨c.toNat - 48, by rw [if_pos h]⟩
  · refine ⟨c.toNat - 87, ?_⟩
    rw [if_neg (by omega), if_pos h]

theorem notPySpace_of_lowerHex {c : Char} (h : isLowerHexDigit c = true) :
    isPySpace c = false := by
  simp only [isLowerHexDigit, decide_eq_true_eq] at h
  simp only [isPySpace, decide_eq_false_iff_not]
  omega

theorem dropWhile_eq_self_of_all {p : Char → Bool} {l : List Char}
    (h : ∀ c ∈ l, p c = false) : l.dropWhile p = l := by
  cases l with
  | nil => rfl
  | cons a l => simp [List.dropWhile, h a (List.mem_cons_self a l)]

theorem stripWS_eq_self {s : List Char} (h : ∀ c ∈ s, isPySpace c = false) :
    stripWS s = s := by
  unfold stripWS
  rw [dropWhile_eq_self_of_all h, dropWhile_eq_self_of_all (by
    intro c hc
    exact h c (List.mem_reverse.mp hc))]
  exact s.reverse_reverse

theorem parseHexTail_isSome_of_lowerHex {l : List Char}
    (h : ∀ c ∈ l, isLowerHexDigit c = true) (acc : Nat) :
    ∃ v, parseHexTail acc l = some v := by
  induction l generalizing acc with
  | nil => exact ⟨acc, rfl⟩
  | cons c rest ih =>
    have hc := h c (List.mem_cons_self c rest)
    have hne : ¬(c.toNat = 95) := by
      simp only [isLowerHexDigit, decide_eq_true_eq] at hc
      omega
    obtain ⟨v, hv⟩ := hexVal_isSome_of_lowerHex hc
    obtain ⟨w, hw⟩ := ih (fun d hd => h d (List.mem_cons_of_mem c hd)) (acc * 16 + v)
    refine ⟨w, ?_⟩
    unfold parseHexTail
    rw [if_neg hne, hv]
    exact hw

/-- A nonempty string of lowercase hex digits is accepted by
`int(s, 16)`. -/
theorem pyInt16_isSome_of_lowerHex {s : List Char} (hne : s ≠ [])
    (h : ∀ c ∈ s, isLowerHexDigit c = true) : ∃ v, pyInt16 s = some v := by
  unfold pyInt16
  rw [stripWS_eq_self (fun c hc => notPySpace_of_lowerHex (h c hc))]
  cases s with
  | nil => exact absurd rfl hne
  | cons c rest =>
    have hc := h c (List.mem_cons_self c rest)
    have hc' := hc
    simp only [isLowerHexDigit, decide_eq_true_eq] at hc'
    have h43 : ¬(c.toNat = 43) := by omega
    have h45 : ¬(c.toNat = 45) := by omega
    simp only [if_neg h43, if_neg h45]
    obtain ⟨v, hv⟩ := hexVal_isSome_of_lowerHex hc
    have hseq : ∃ w, parseHexSeq (c :: rest) = some w := by
      obtain ⟨w, hw⟩ := parseHexTail_isSome_of_lowerHex
        (fun d hd => h d (List.mem_cons_of_mem c hd)) v
      exact ⟨w, by simp only [parseHexSeq, hv, hw]⟩
    cases rest with
    | nil =>
      obtain ⟨w, hw⟩ := hseq
      refine ⟨w, ?_⟩
      simp only [hw]
      rw [one_mul]
    | cons c1 rest2 =>
      have hc1 := h c1 (List.mem_cons_of_mem c (List.mem_cons_self c1 rest2))
      simp only [isLowerHexDigit, decide_eq_true_eq] at hc1
      have hpre : ¬(c.toNat = 48 ∧ (c1.toNat = 120 ∨ c1.toNat = 88)) := by omega
      obtain ⟨w, hw⟩ := hseq
      refine ⟨w, ?_⟩
      simp only [if_neg hpre, hw]
      rw [one_mul]

set_option maxRecDepth 4000 in
/-- Behaviour of Python `f"{v:02x}"` on a byte value, and that its output
is parsed back by `int(_, 16)`: exactly two lowercase hex characters whose
value is `v`. -/
theorem fmt02x_spec : ∀ n : Nat, n ≤ 255 →
    (fmt02x (Int.ofNat n)).length = 2 ∧
    (∀ c ∈ fmt02x (Int.ofNat n), isLowerHexDigit c = true) ∧
    pyInt16 (fmt02x (Int.ofNat n)) = some (Int.ofNat n) := by decide

/-- All components of the pixel lie in `0..255`. -/
def pixelInRange (p : Pixel) : Prop :=
  0 ≤ p.1 ∧ p.1 ≤ 255 ∧ 0 ≤ p.2.1 ∧ p.2.1 ≤ 255 ∧ 0 ≤ p.2.2 ∧ p.2.2 ≤ 255

instance (p : Pixel) : Decidable (pixelInRange p) := by
  unfold pixelInRange
  infer_instance

theorem fmt02x_of_range {v : Int} (h0 : 0 ≤ v) (h255 : v ≤ 255) :
    (fmt02x v).length = 2 ∧ (∀ c ∈ fmt02x v, isLowerHexDigit c = true) ∧
    pyInt16 (fmt02x v) = some v := by
  have hv : Int.ofNat v.toNat = v := Int.toNat_of_nonneg h0
  have hle : v.toNat ≤ 255 := by omega
  have := fmt02x_spec v.toNat hle
  rw [hv] at this
  exact this

open SatishEncoder SatishDecoder in
theorem pixel_to_hex_spec {p : Pixel} (h : pixelInRange p) :
    (pixel_to_hex p).length = 6 ∧
    (∀ c ∈ pixel_to_hex p, isLowerHexDigit c = true) ∧
    hex_to_rgb (pixel_to_hex p) = .ok p := by
  obtain ⟨h1, h2, h3, h4, h5, h6⟩ := h
  obtain ⟨hr1, hr2, hr3⟩ := fmt02x_of_range h1 h2
  obtain ⟨hg1, hg2, hg3⟩ := fmt02x_of_range h3 h4
  obtain ⟨hb1, hb2, hb3⟩ := fmt02x_of_range h5 h6
  obtain ⟨r0, r1, hr⟩ := List.length_eq_two.mp hr1
  obtain ⟨g0, g1, hg⟩ := List.length_eq_two.mp hg1
  obtain ⟨b0, b1, hb⟩ := List.length_eq_two.mp hb1
  have hform : pixel_to_hex p = [r0, r1, g0, g1, b0, b1] := by
    simp [pixel_to_hex, hr, hg, hb]
  refine ⟨by rw [hform]; rfl, ?_, ?_⟩
  · intro c hc
    rw [hform] at hc
    simp only [List.mem_cons, List.not_mem_nil, or_false] at hc
    rcases hc with rfl | rfl | rfl | rfl | rfl | rfl
    · exact hr2 c (by rw [hr]; exact List.mem_cons_self _ _)
    · exact hr2 c (by rw [hr]; exact List.mem_cons_of_mem _ (List.mem_cons_self _ _))
    · exact hg2 c (by rw [hg]; exact List.mem_cons_self _ _)
    · exact hg2 c (by rw [hg]; exact List.mem_cons_of_mem _ (List.mem_cons_self _ _))
    · exact hb2 c (by rw [hb]; exact List.mem_cons_self _ _)
    · exact hb2 c (by rw [hb]; exact List.mem_cons_of_mem _ (List.mem_cons_self _ _))
  · rw [hform]
    unfold hex_to_rgb
    have e1 : ([r0, r1, g0, g1, b0, b1] : List Char).take 2 = fmt02x p.1 := by
      rw [hr]; rfl
    have e2 : (([r0, r1, g0, g1, b0, b1] : List Char).drop 2).take 2 = fmt02x p.2.1 := by
      rw [hg]; rfl
    have e3 : (([r0, r1, g0, g1, b0, b1] : List Char).drop 4).take 2 = fmt02x p.2.2 := by
      rw [hb]; rfl
    rw [e1, e2, e3, hr3, hg3, hb3]

open SatishEncoder in
theorem convert_cons (p : Pixel) (ps : List Pixel) :
    convert_pixels_to_hex (p :: ps) = pixel_to_hex p :: convert_pixels_to_hex ps := rfl

open SatishEncoder in
theorem flatten_hex_length {pixels : List Pixel}
    (h : ∀ p ∈ pixels, pixelInRange p) :
    (convert_pixels_to_hex pixels).flatten.length = 6 * pixels.length := by
  induction pixels with
  | nil => rfl
  | cons p ps ih =>
    have hp := (pixel_to_hex_spec (h p (List.mem_cons_self p ps))).1
    rw [convert_cons, List.flatten_cons, List.length_append, hp,
      ih (fun q hq => h q (List.mem_cons_of_mem p hq)), List.length_cons]
    ring

open SatishEncoder in
theorem flatten_hex_lowerHex {pixels : List Pixel}
    (h : ∀ p ∈ pixels, pixelInRange p) :
    ∀ c ∈ (convert_pixels_to_hex pixels).flatten, isLowerHexDigit c = true := by
  intro c hc
  rw [List.mem_flatten] at hc
  obtain ⟨l, hl, hcl⟩ := hc
  simp only [convert_pixels_to_hex, List.mem_map] at hl
  obtain ⟨p, hp, rfl⟩ := hl
  exact (pixel_to_hex_spec (h p hp)).2.1 c hcl

open SatishDecoder in
theorem parse_groups_cons_ok {chunk rest : List Char} {p : Pixel} {fuel : Nat}
    (hlen : chunk.length = 6) (hok : hex_to_rgb chunk = .ok p) :
    parse_groups (fuel + 1) (chunk ++ rest) =
      match parse_groups fuel rest with
      | .error e => .error e
      | .ok ps => .ok (p :: ps) := by
  have htake : (chunk ++ rest).take 6 = chunk := List.take_left' hlen
  have hdrop : (chunk ++ rest).drop 6 = rest := List.drop_left' hlen
  cases chunk with
  | nil => simp at hlen
  | cons a t =>
    rw [List.cons_append]
    conv_lhs => unfold parse_groups
    rw [← List.cons_append, htake, hdrop, if_neg (by rw [hlen]; trivial), hok]

open SatishDecoder in
theorem parse_groups_cons_err {chunk rest : List Char} {e : Err} {fuel : Nat}
    (hlen : chunk.length = 6) (herr : hex_to_rgb chunk = .error e) :
    parse_groups (fuel + 1) (chunk ++ rest) = .error e := by
  have htake : (chunk ++ rest).take 6 = chunk := List.take_left' hlen
  cases chunk with
  | nil => simp at hlen
  | cons a t =>
    rw [List.cons_append]
    conv_lhs => unfold parse_groups
    rw [← List.cons_append, htake, if_neg (by rw [hlen]; trivial), herr]

open SatishEncoder SatishDecoder in
theorem parse_groups_flatten {pixels : List Pixel}
    (h : ∀ p ∈ pixels, pixelInRange p) :
    ∀ fuel, pixels.length ≤ fuel →
      parse_groups fuel (convert_pixels_to_hex pixels).flatten = .ok pixels := by
  induction pixels with
  | nil =>
    intro fuel _
    cases fuel <;> rfl
  | cons p ps ih =>
    intro fuel hfuel
    obtain ⟨f, rfl⟩ : ∃ f, fuel = f + 1 := by
      cases fuel with
      | zero => simp at hfuel
      | succ f => exact ⟨f, rfl⟩
    have hp := pixel_to_hex_spec (h p (List.mem_cons_self p ps))
    have hrest : ps.length ≤ f := by
      simp only [List.length_cons] at hfuel
      omega
    rw [convert_cons, List.flatten_cons, parse_groups_cons_ok hp.1 hp.2.2,
      ih (fun q hq => h q (List.mem_cons_of_mem p hq)) f hrest]

open SatishEncoder SatishDecoder in
theorem parse_pixel_data_flatten {pixels : List Pixel}
    (h : ∀ p ∈ pixels, pixelInRange p) :
    parse_pixel_data (convert_pixels_to_hex pixels).flatten = .ok pixels := by
  unfold parse_pixel_data
  rw [parse_groups_flatten h _ (by
    rw [flatten_hex_length h]
    omega)]

open SatishFormat in
theorem pack_header_mk (w hgt ch v : Nat) :
    pack_header ⟨MAGIC_BYTES, w, hgt, ch, v⟩ =
      [83, 65, 84, 73, w / 256, w % 256, hgt / 256, hgt % 256, ch, v] := rfl

open SatishFormat in
theorem pack_header_mk_length (w hgt ch v : Nat) :
    (pack_header ⟨MAGIC_BYTES, w, hgt, ch, v⟩).length = 10 := by
  rw [pack_header_mk]
  rfl

open SatishFormat in
theorem validate_header_fmt_ok {w hgt v : Nat} (hw1 : 1 ≤ w) (hw2 : w ≤ 65535)
    (hh1 : 1 ≤ hgt) (hh2 : hgt ≤ 65535) (hv : 1 ≤ v) :
    validate_header_fmt ⟨MAGIC_BYTES, w, hgt, 3, v⟩ = .ok () := by
  unfold validate_header_fmt
  rw [if_neg (show ¬(SatishHeader.mk MAGIC_BYTES w hgt 3 v).magic ≠ MAGIC_BYTES from
        not_not_intro rfl),
    if_neg (show ¬¬(1 ≤ (SatishHeader.mk MAGIC_BYTES w hgt 3 v).width ∧
        (SatishHeader.mk MAGIC_BYTES w hgt 3 v).width ≤ MAX_WIDTH) from
        not_not_intro ⟨hw1, hw2⟩),
    if_neg (show ¬¬(1 ≤ (SatishHeader.mk MAGIC_BYTES w hgt 3 v).height ∧
        (SatishHeader.mk MAGIC_BYTES w hgt 3 v).height ≤ MAX_HEIGHT) from
        not_not_intro ⟨hh1, hh2⟩),
    if_neg (show ¬(SatishHeader.mk MAGIC_BYTES w hgt 3 v).channels ≠ 3 from
        not_not_intro rfl),
    if_neg (show ¬(SatishHeader.mk MAGIC_BYTES w hgt 3 v).version < 1 from by
        simp only []
        omega)]

open SatishFormat in
theorem unpack_pack_header {w hgt v : Nat} (hw1 : 1 ≤ w) (hw2 : w ≤ 65535)
    (hh1 : 1 ≤ hgt) (hh2 : hgt ≤ 65535) (hv : 1 ≤ v) :
    unpack_header (pack_header ⟨MAGIC_BYTES, w, hgt, 3, v⟩) =
      .ok ⟨MAGIC_BYTES, w, hgt, 3, v⟩ := by
  rw [pack_header_mk]
  unfold unpack_header
  rw [if_neg (by simp [HEADER_SIZE])]
  have htake : ([83, 65, 84, 73, w / 256, w % 256, hgt / 256, hgt % 256, 3, v] : List Nat).take 4 =
      MAGIC_BYTES := rfl
  rw [htake, if_neg (by simp)]
  have hw : w / 256 * 256 + w % 256 = w := by omega
  have hh : hgt / 256 * 256 + hgt % 256 = hgt := by omega
  simp only [List.getD, List.get?_cons_succ, List.get?_cons_zero,
    Option.getD_some, hw, hh]
  rw [validate_header_fmt_ok hw1 hw2 hh1 hh2 hv]

theorem pyAsciiDecode_map {s : List Char} (h : ∀ c ∈ s, c.toNat < 128) :
    pyAsciiDecode (s.map Char.toNat) = some s := by
  unfold pyAsciiDecode
  rw [if_pos, List.map_map]
  · have : Char.ofNat ∘ Char.toNat = id := by
      funext c
      simp
    rw [this, List.map_id]
  · rw [List.all_eq_true]
    intro b hb
    rw [List.mem_map] at hb
    obtain ⟨c, hc, rfl⟩ := hb
    exact decide_eq_true (h c hc)

open SatishFormat SatishEncoder SatishDecoder in
/-- Decoding the exact byte stream that `encode_from_array` emits
recovers the header and the pixel buffer. -/
theorem load_encoded {w hgt v : Nat} {pixels : List Pixel}
    (hw1 : 1 ≤ w) (hw2 : w ≤ 65535) (hh1 : 1 ≤ hgt) (hh2 : hgt ≤ 65535) (hv : 1 ≤ v)
    (hlen : pixels.length = w * hgt)
    (hrange : ∀ p ∈ pixels, pixelInRange p) :
    load_satish_file (pack_header ⟨MAGIC_BYTES, w, hgt, 3, v⟩ ++
      ((convert_pixels_to_hex pixels).flatten.map Char.toNat)) =
      .ok (⟨MAGIC_BYTES, w, hgt, 3, v⟩, pixels) := by
  have htake : (pack_header ⟨MAGIC_BYTES, w, hgt, 3, v⟩ ++
      ((convert_pixels_to_hex pixels).flatten.map Char.toNat)).take HEADER_SIZE =
      pack_header ⟨MAGIC_BYTES, w, hgt, 3, v⟩ :=
    List.take_left' (pack_header_mk_length w hgt 3 v)
  have hdrop : (pack_header ⟨MAGIC_BYTES, w, hgt, 3, v⟩ ++
      ((convert_pixels_to_hex pixels).flatten.map Char.toNat)).drop HEADER_SIZE =
      (convert_pixels_to_hex pixels).flatten.map Char.toNat :=
    List.drop_left' (pack_header_mk_length w hgt 3 v)
  have hascii : pyAsciiDecode ((convert_pixels_to_hex pixels).flatten.map Char.toNat) =
      some (convert_pixels_to_hex pixels).flatten :=
    pyAsciiDecode_map (fun c hc => toNat_lt_of_lowerHex (flatten_hex_lowerHex hrange c hc))
  have hlen6 : (convert_pixels_to_hex pixels).flatten.length = w * hgt * 6 := by
    rw [flatten_hex_length hrange, hlen]
    ring
  unfold load_satish_file
  rw [htake, unpack_pack_header hw1 hw2 hh1 hh2 hv, hdrop]
  simp only [hascii, calculate_pixel_data_size, HEX_CHARS_PER_PIXEL, hlen6,
    parse_pixel_data_flatten hrange, hlen, ne_eq, not_true_eq_false, if_false,
    ite_false]

open SatishFormat in
theorem create_header_ok {w hgt v : Nat} (hw1 : 1 ≤ w) (hw2 : w ≤ 65535)
    (hh1 : 1 ≤ hgt) (hh2 : hgt ≤ 65535) (hv : 1 ≤ v) :
    create_header w hgt 3 v = .ok ⟨MAGIC_BYTES, w, hgt, 3, v⟩ := by
  unfold create_header
  rw [if_neg (not_not_intro ⟨hw1, hw2⟩), if_neg (not_not_intro ⟨hh1, hh2⟩),
    if_neg (not_not_intro rfl), if_neg (Nat.not_lt.mpr hv)]

/-- The 6-character group `"zzzzzz"` (`'z'` is code 122) used by the
corrupted-hex scenario. -/
def zzGroup : List Char := List.replicate 6 (Char.ofNat 122)

namespace SatishValidator

theorem validate_hex_string_ok {s : List Char} (hlen : s.length = 6)
    (hhex : ∀ c ∈ s, isLowerHexDigit c = true) :
    validate_hex_string s 6 = [] := by
  unfold validate_hex_string
  rw [if_neg (not_not_intro hlen)]
  obtain ⟨v, hv⟩ := pyInt16_isSome_of_lowerHex (by
    intro hnil
    rw [hnil] at hlen
    simp at hlen) hhex
  rw [hv]
  rfl

theorem scan_chunks_clean :
    ∀ fuel {s : List Char}, (∀ c ∈ s, isLowerHexDigit c = true) →
      ∀ idx, scan_chunks fuel idx s = none := by
  intro fuel
  induction fuel with
  | zero =>
    intro s h idx
    cases s <;> rfl
  | succ f ih =>
    intro s h idx
    cases s with
    | nil => rfl
    | cons a t =>
      conv_lhs => unfold scan_chunks
      by_cases hl : ((a :: t).take 6).length = 6
      · rw [if_pos hl,
          validate_hex_string_ok hl (fun c hc => h c (List.take_subset 6 _ hc))]
        exact ih (fun c hc => h c (List.drop_subset 6 _ hc)) (idx + 1)
      · rw [if_neg hl]
        exact ih (fun c hc => h c (List.drop_subset 6 _ hc)) (idx + 1)

theorem accessStage_large {data : List Nat} {r : VResult}
    (h : 10 ≤ data.length) :
    accessStage data r =
      { r with info := { r.info with file_size := some data.length } } := by
  unfold accessStage
  rw [if_neg (show ¬(data.length < SatishFormat.HEADER_SIZE) from by
    unfold SatishFormat.HEADER_SIZE
    omega)]

theorem extensionStage_true (r : VResult) : extensionStage true r = r := rfl

theorem structureStage_aligned {data : List Nat} {r : VResult}
    (h10 : 10 ≤ data.length) (hmod : (data.length - 10) % 6 = 0) :
    structureStage data r = r := by
  unfold structureStage
  rw [if_neg (show ¬(data.length < SatishFormat.HEADER_SIZE) from by
      unfold SatishFormat.HEADER_SIZE
      omega),
    if_neg (show ¬((data.length - SatishFormat.HEADER_SIZE) %
        SatishFormat.HEX_CHARS_PER_PIXEL ≠ 0) from not_not_intro hmod)]

theorem structureStage_misaligned {data : List Nat} {r : VResult}
    (h10 : 10 ≤ data.length) (hmod : (data.length - 10) % 6 ≠ 0) :
    structureStage data r =
      { r with warnings := r.warnings ++ [.misalignedPixelData] } := by
  unfold structureStage
  rw [if_neg (show ¬(data.length < SatishFormat.HEADER_SIZE) from by
      unfold SatishFormat.HEADER_SIZE
      omega),
    if_pos (show (data.length - SatishFormat.HEADER_SIZE) %
        SatishFormat.HEX_CHARS_PER_PIXEL ≠ 0 from hmod)]

theorem validate_header_data_v1 {w hgt : Nat} (hw1 : 1 ≤ w) (hw2 : w ≤ 65535)
    (hh1 : 1 ≤ hgt) (hh2 : hgt ≤ 65535) :
    validate_header_data ⟨SatishFormat.MAGIC_BYTES, w, hgt, 3, 1⟩ = [] := by
  unfold validate_header_data
  rw [if_neg (show ¬(SatishHeader.mk SatishFormat.MAGIC_BYTES w hgt 3 1).magic ≠
        SatishFormat.MAGIC_BYTES from not_not_intro rfl),
    if_neg (show ¬¬(1 ≤ (SatishHeader.mk SatishFormat.MAGIC_BYTES w hgt 3 1).width ∧
        (SatishHeader.mk SatishFormat.MAGIC_BYTES w hgt 3 1).width ≤
          SatishFormat.MAX_WIDTH) from not_not_intro ⟨hw1, hw2⟩),
    if_neg (show ¬¬(1 ≤ (SatishHeader.mk SatishFormat.MAGIC_BYTES w hgt 3 1).height ∧
        (SatishHeader.mk SatishFormat.MAGIC_BYTES w hgt 3 1).height ≤
          SatishFormat.MAX_HEIGHT) from not_not_intro ⟨hh1, hh2⟩),
    if_neg (show ¬(SatishHeader.mk SatishFormat.MAGIC_BYTES w hgt 3 1).channels ≠ 3 from
        not_not_intro rfl),
    if_neg (show ¬(SatishHeader.mk SatishFormat.MAGIC_BYTES w hgt 3 1).version < 1 from by
        simp),
    if_neg (show ¬(SatishHeader.mk SatishFormat.MAGIC_BYTES w hgt 3 1).version >
        SatishFormat.CURRENT_VERSION from by
        simp [SatishFormat.CURRENT_VERSION])]
  rfl

theorem headerStage_of_ok {data : List Nat} {r : VResult} {hdr : SatishHeader}
    (hunpack : SatishFormat.unpack_header (data.take SatishFormat.HEADER_SIZE) = .ok hdr)
    (hval : validate_header_data hdr = []) :
    headerStage data r =
      (some hdr, { r with info := { r.info with header := some hdr } }) := by
  simp only [headerStage, hunpack, hval, List.append_nil, if_pos]

theorem pixelDataStage_size_err {data : List Nat} {hdr : SatishHeader} {r : VResult}
    (hlen : (data.drop SatishFormat.HEADER_SIZE).length ≠
      SatishFormat.calculate_pixel_data_size hdr.width hdr.height hdr.channels) :
    pixelDataStage data hdr r =
      .error (.pixelDataSizeMismatchV
        (SatishFormat.calculate_pixel_data_size hdr.width hdr.height hdr.channels)
        (data.drop SatishFormat.HEADER_SIZE).length, r) := by
  unfold pixelDataStage
  rw [if_pos hlen]

theorem pixelDataStage_of_payload {data : List Nat} {payload : List Char}
    {w hgt : Nat} {r : VResult} {res : Option (Nat × List HexVErr)}
    (hdrop : data.drop SatishFormat.HEADER_SIZE = payload.map Char.toNat)
    (hplen : payload.length = w * hgt * 6)
    (hascii : ∀ c ∈ payload, c.toNat < 128)
    (hscan : scan_chunks (payload.take 60).length 0 (payload.take 60) = res) :
    pixelDataStage data ⟨SatishFormat.MAGIC_BYTES, w, hgt, 3, 1⟩ r =
      .ok { (match res with
             | some x =>
               { r with errors := r.errors ++
                   x.2.map (fun e => VErr.pixelHexError x.1 e) }
             | none => r) with
            info := { r.info with
              pixel_data_size := some (w * hgt * 6),
              pixel_count := some (w * hgt) } } := by
  have hplen' : (payload.map Char.toNat).length = w * hgt * 6 := by
    rw [List.length_map]
    exact hplen
  simp only [pixelDataStage, hdrop, hplen', SatishFormat.calculate_pixel_data_size,
    SatishFormat.HEX_CHARS_PER_PIXEL, ne_eq, not_true_eq_false, if_false,
    ite_false, pyAsciiDecode_map hascii, hscan]
  cases res with
  | none => rfl
  | some x => rfl

theorem integrityStage_eval {w hgt : Nat} {b : Bool} {es : List VErr}
    {ws : List VWarn} {hd : Option SatishHeader} {pds pc : Option Nat}
    {ig : Option (Nat × Nat × Bool)} :
    integrityStage ⟨SatishFormat.MAGIC_BYTES, w, hgt, 3, 1⟩
      ⟨b, es, ws, ⟨some (10 + w * hgt * 6), hd, pds, pc, ig⟩⟩ =
      ⟨b, es, ws, ⟨some (10 + w * hgt * 6), hd, pds, pc,
        some (10 + w * hgt * 6, 10 + w * hgt * 6, true)⟩⟩ := by
  unfold integrityStage
  have hexp : SatishFormat.HEADER_SIZE +
      SatishFormat.calculate_pixel_data_size
        (SatishHeader.mk SatishFormat.MAGIC_BYTES w hgt 3 1).width
        (SatishHeader.mk SatishFormat.MAGIC_BYTES w hgt 3 1).height
        (SatishHeader.mk SatishFormat.MAGIC_BYTES w hgt 3 1).channels =
      10 + w * hgt * 6 := rfl
  rw [hexp]
  simp only [Option.getD_some, ne_eq, not_true_eq_false, not_false_eq_true,
    ite_false, ite_true, if_neg, not_not, beq_self_eq_true]

open SatishEncoder SatishDecoder in
theorem parse_groups_zz {pre : List Pixel} (hr : ∀ p ∈ pre, pixelInRange p)
    (tail : List Char) :
    ∀ fuel, pre.length + 1 ≤ fuel →
      parse_groups fuel ((convert_pixels_to_hex pre).flatten ++ (zzGroup ++ tail)) =
        .error (.invalidHexColor zzGroup) := by
  induction pre with
  | nil =>
    intro fuel hfuel
    obtain ⟨f, rfl⟩ : ∃ f, fuel = f + 1 := ⟨fuel - 1, by omega⟩
    rw [show (convert_pixels_to_hex []).flatten = ([] : List Char) from rfl,
      List.nil_append]
    exact parse_groups_cons_err (by decide) (by decide)
  | cons p ps ih =>
    intro fuel hfuel
    obtain ⟨f, rfl⟩ : ∃ f, fuel = f + 1 := ⟨fuel - 1, by omega⟩
    rw [convert_cons, List.flatten_cons, List.append_assoc]
    have hp := pixel_to_hex_spec (hr p (List.mem_cons_self p ps))
    rw [parse_groups_cons_ok hp.1 hp.2.2,
      ih (fun q hq => hr q (List.mem_cons_of_mem p hq)) f (by
        simp only [List.length_cons] at hfuel
        omega)]

theorem scan_chunks_cons_bad {chunk rest : List Char} {fuel idx : Nat}
    {errs : List HexVErr} (hlen : chunk.length = 6)
    (herrs : validate_hex_string chunk 6 = errs) (hne : errs ≠ []) :
    scan_chunks (fuel + 1) idx (chunk ++ rest) = some (idx, errs) := by
  have htake : (chunk ++ rest).take 6 = chunk := List.take_left' hlen
  cases chunk with
  | nil => simp at hlen
  | cons a t =>
    rw [List.cons_append]
    conv_lhs => unfold scan_chunks
    rw [← List.cons_append, htake, if_pos hlen, herrs]
    cases errs with
    | nil => exact absurd rfl hne
    | cons e es => rfl

theorem scan_chunks_cons_ok {chunk rest : List Char} {fuel idx : Nat}
    (hlen : chunk.length = 6) (hok : validate_hex_string chunk 6 = []) :
    scan_chunks (fuel + 1) idx (chunk ++ rest) = scan_chunks fuel (idx + 1) (rest) := by
  have htake : (chunk ++ rest).take 6 = chunk := List.take_left' hlen
  have hdrop : (chunk ++ rest).drop 6 = rest := List.drop_left' hlen
  cases chunk with
  | nil => simp at hlen
  | cons a t =>
    rw [List.cons_append]
    conv_lhs => unfold scan_chunks
    rw [← List.cons_append, htake, hdrop, if_pos hlen, hok]

open SatishEncoder in
theorem scan_chunks_zz {pre : List Pixel} (hr : ∀ p ∈ pre, pixelInRange p)
    (tail : List Char) :
    ∀ fuel idx, pre.length + 1 ≤ fuel →
      scan_chunks fuel idx ((convert_pixels_to_hex pre).flatten ++ (zzGroup ++ tail)) =
        some (idx + pre.length, [.badChars zzGroup]) := by
  induction pre with
  | nil =>
    intro fuel idx hfuel
    obtain ⟨f, rfl⟩ : ∃ f, fuel = f + 1 := ⟨fuel - 1, by omega⟩
    rw [show (convert_pixels_to_hex []).flatten = ([] : List Char) from rfl,
      List.nil_append, scan_chunks_cons_bad (by decide)
        (show validate_hex_string zzGroup 6 = [.badChars zzGroup] from by decide)
        (by decide)]
    rfl
  | cons p ps ih =>
    intro fuel idx hfuel
    obtain ⟨f, rfl⟩ : ∃ f, fuel = f + 1 := ⟨fuel - 1, by omega⟩
    rw [convert_cons, List.flatten_cons, List.append_assoc]
    have hp := pixel_to_hex_spec (hr p (List.mem_cons_self p ps))
    rw [scan_chunks_cons_ok hp.1 (validate_hex_string_ok hp.1 hp.2.1),
      ih (fun q hq => hr q (List.mem_cons_of_mem p hq)) f (idx + 1) (by
        simp only [List.length_cons] at hfuel
        omega)]
    simp only [List.length_cons]
    rw [show idx + 1 + ps.length = idx + (ps.length + 1) from by omega]

theorem validate_file_pixel_ok {extOk : Bool} {data : List Nat}
    {hdr : SatishHeader} {r4 r5 : VResult}
    (hacc : (accessStage data ⟨false, [], [], VInfo.empty⟩).errors = [])
    (hhdr : headerStage data (structureStage data (extensionStage extOk
      (accessStage data ⟨false, [], [], VInfo.empty⟩))) = (some hdr, r4))
    (hpix : pixelDataStage data hdr r4 = .ok r5) :
    validate_file extOk data =
      { integrityStage hdr r5 with
        valid := (integrityStage hdr r5).errors.isEmpty } := by
  simp only [validate_file, hacc, hhdr, hpix, ne_eq, not_true_eq_false,
    not_false_eq_true, ite_false, ite_true, reduceCtorEq, not_not]

theorem validate_file_pixel_err {extOk : Bool} {data : List Nat}
    {hdr : SatishHeader} {r4 r5 : VResult} {e : Err}
    (hacc : (accessStage data ⟨false, [], [], VInfo.empty⟩).errors = [])
    (hhdr : headerStage data (structureStage data (extensionStage extOk
      (accessStage data ⟨false, [], [], VInfo.empty⟩))) = (some hdr, r4))
    (hpix : pixelDataStage data hdr r4 = .error (e, r5)) :
    validate_file extOk data =
      { r5 with errors := r5.errors ++ [.validationFailed e] } := by
  simp only [validate_file, hacc, hhdr, hpix, ne_eq, not_true_eq_false,
    not_false_eq_true, ite_false, ite_true, reduceCtorEq, not_not]

end SatishValidator

/-! ## Claim theorems -/

open SatishFormat SatishEncoder SatishDecoder in
/-- C1: for every width and height in `1..65535` and every pixel buffer of
exactly `w * h` triples with components in `0..255`, encoding
(`encode_from_array`, i.e. header packing plus hex conversion) succeeds,
and decoding the emitted byte stream (`_load_satish_file`, i.e. header
unpack plus hex parse) yields the header
`⟨"SATI", w, h, 3, CURRENT_VERSION⟩` and the original pixel list in
order. -/
theorem claim_C1_encode_decode_roundtrip (w hgt : Nat) (pixels : List Pixel)
    (hw1 : 1 ≤ w) (hw2 : w ≤ 65535) (hh1 : 1 ≤ hgt) (hh2 : hgt ≤ 65535)
    (hlen : pixels.length = w * hgt)
    (hrange : ∀ p ∈ pixels, pixelInRange p) :
    ∃ out, encode_from_array pixels w hgt = .ok out ∧
      load_satish_file out =
        .ok (⟨MAGIC_BYTES, w, hgt, 3, CURRENT_VERSION⟩, pixels) := by
  refine ⟨_, ?_, load_encoded hw1 hw2 hh1 hh2 (le_refl 1) hlen hrange⟩
  unfold encode_from_array
  rw [if_neg (not_not_intro hlen),
    @create_header_ok w hgt CURRENT_VERSION hw1 hw2 hh1 hh2 (le_refl 1)]

/-- Witness for C1 at `w = h = 1`, buffer `[(0, 0, 0)]`. -/
theorem claim_C1_encode_decode_roundtrip_witness :
    ∃ out, SatishEncoder.encode_from_array [((0 : Int), 0, 0)] 1 1 = .ok out ∧
      SatishDecoder.load_satish_file out =
        .ok (⟨SatishFormat.MAGIC_BYTES, 1, 1, 3, SatishFormat.CURRENT_VERSION⟩,
          [((0 : Int), 0, 0)]) :=
  claim_C1_encode_decode_roundtrip 1 1 [(0, 0, 0)] (by decide) (by decide)
    (by decide) (by decide) (by decide) (by decide)

open SatishFormat SatishValidator in
/-- C2: `calculate_pixel_data_size` returns `w * h * 6` whatever the
channel argument, and a byte blob of exactly `HEADER_SIZE + w * h * 6`
bytes made of a correct header (magic `"SATI"`, dimensions in `1..65535`,
channels 3, version 1) followed by a payload of lowercase hex characters
passes `validate_file` with `valid = true` and an empty error list. -/
theorem claim_C2_size_invariant_and_validate (w hgt ch : Nat) (payload : List Char)
    (hw1 : 1 ≤ w) (hw2 : w ≤ 65535) (hh1 : 1 ≤ hgt) (hh2 : hgt ≤ 65535)
    (hplen : payload.length = w * hgt * 6)
    (hhex : ∀ c ∈ payload, isLowerHexDigit c = true) :
    calculate_pixel_data_size w hgt ch = w * hgt * 6 ∧
    (validate_file true (pack_header ⟨MAGIC_BYTES, w, hgt, 3, 1⟩ ++
      payload.map Char.toNat)).valid = true ∧
    (validate_file true (pack_header ⟨MAGIC_BYTES, w, hgt, 3, 1⟩ ++
      payload.map Char.toNat)).errors = [] := by
  refine ⟨rfl, ?_⟩
  have hdlen : (pack_header ⟨MAGIC_BYTES, w, hgt, 3, 1⟩ ++
      payload.map Char.toNat).length = 10 + w * hgt * 6 := by
    rw [List.length_append, pack_header_mk_length, List.length_map, hplen]
  have h10 : 10 ≤ (pack_header ⟨MAGIC_BYTES, w, hgt, 3, 1⟩ ++
      payload.map Char.toNat).length := by omega
  have hmod : ((pack_header ⟨MAGIC_BYTES, w, hgt, 3, 1⟩ ++
      payload.map Char.toNat).length - 10) % 6 = 0 := by
    rw [hdlen]
    omega
  have htake : (pack_header ⟨MAGIC_BYTES, w, hgt, 3, 1⟩ ++
      payload.map Char.toNat).take HEADER_SIZE =
      pack_header ⟨MAGIC_BYTES, w, hgt, 3, 1⟩ :=
    List.take_left' (pack_header_mk_length w hgt 3 1)
  have hunpack : unpack_header ((pack_header ⟨MAGIC_BYTES, w, hgt, 3, 1⟩ ++
      payload.map Char.toNat).take HEADER_SIZE) = .ok ⟨MAGIC_BYTES, w, hgt, 3, 1⟩ := by
    rw [htake]
    exact unpack_pack_header hw1 hw2 hh1 hh2 (le_refl 1)
  have hdrop : (pack_header ⟨MAGIC_BYTES, w, hgt, 3, 1⟩ ++
      payload.map Char.toNat).drop HEADER_SIZE = payload.map Char.toNat :=
    List.drop_left' (pack_header_mk_length w hgt 3 1)
  have hscan : scan_chunks (payload.take 60).length 0 (payload.take 60) = none :=
    scan_chunks_clean _ (fun c hc => hhex c (List.take_subset 60 _ hc)) 0
  have hascii : ∀ c ∈ payload, c.toNat < 128 :=
    fun c hc => toNat_lt_of_lowerHex (hhex c hc)
  have hval : validate_header_data ⟨MAGIC_BYTES, w, hgt, 3, 1⟩ = [] :=
    validate_header_data_v1 hw1 hw2 hh1 hh2
  have hacc : (accessStage (pack_header ⟨MAGIC_BYTES, w, hgt, 3, 1⟩ ++
      payload.map Char.toNat) ⟨false, [], [], VInfo.empty⟩).errors = [] := by
    rw [accessStage_large h10]
  have hhdr : headerStage (pack_header ⟨MAGIC_BYTES, w, hgt, 3, 1⟩ ++
      payload.map Char.toNat)
      (structureStage (pack_header ⟨MAGIC_BYTES, w, hgt, 3, 1⟩ ++
        payload.map Char.toNat)
        (extensionStage true (accessStage (pack_header ⟨MAGIC_BYTES, w, hgt, 3, 1⟩ ++
          payload.map Char.toNat) ⟨false, [], [], VInfo.empty⟩))) =
      (some ⟨MAGIC_BYTES, w, hgt, 3, 1⟩,
        ⟨false, [], [], ⟨some (10 + w * hgt * 6),
          some ⟨MAGIC_BYTES, w, hgt, 3, 1⟩, none, none, none⟩⟩) := by
    rw [accessStage_large h10, extensionStage_true, structureStage_aligned h10 hmod,
      headerStage_of_ok hunpack hval, hdlen]
    rfl
  have hpix : pixelDataStage (pack_header ⟨MAGIC_BYTES, w, hgt, 3, 1⟩ ++
      payload.map Char.toNat) ⟨MAGIC_BYTES, w, hgt, 3, 1⟩
      ⟨false, [], [], ⟨some (10 + w * hgt * 6),
        some ⟨MAGIC_BYTES, w, hgt, 3, 1⟩, none, none, none⟩⟩ =
      .ok ⟨false, [], [], ⟨some (10 + w * hgt * 6),
        some ⟨MAGIC_BYTES, w, hgt, 3, 1⟩, some (w * hgt * 6),
        some (w * hgt), none⟩⟩ := by
    rw [pixelDataStage_of_payload hdrop hplen hascii hscan]
  rw [validate_file_pixel_ok hacc hhdr hpix, integrityStage_eval]
  exact ⟨rfl, rfl⟩

/-- Witness for C2 at `w = h = 1`, channels 0, payload `"000000"`. -/
theorem claim_C2_size_invariant_and_validate_witness :
    SatishFormat.calculate_pixel_data_size 1 1 0 = 1 * 1 * 6 ∧
    (SatishValidator.validate_file true
      (SatishFormat.pack_header ⟨SatishFormat.MAGIC_BYTES, 1, 1, 3, 1⟩ ++
        (List.replicate 6 (Char.ofNat 48)).map Char.toNat)).valid = true ∧
    (SatishValidator.validate_file true
      (SatishFormat.pack_header ⟨SatishFormat.MAGIC_BYTES, 1, 1, 3, 1⟩ ++
        (List.replicate 6 (Char.ofNat 48)).map Char.toNat)).errors = [] :=
  claim_C2_size_invariant_and_validate 1 1 0 (List.replicate 6 (Char.ofNat 48))
    (by decide) (by decide) (by decide) (by decide) (by decide) (by decide)

open SatishFormat SatishValidator in
/-- C3 counterexample: a 10-byte header with magic `"SATI"`, width 1,
height 1, channels 3 and version 2 (which exceeds the current supported
version 1) is accepted by `unpack_header` — it is not rejected with an
error, contrary to the claim (`_validate_header` checks only
`version < 1`). -/
theorem claim_C3_counterexample :
    unpack_header [83, 65, 84, 73, 0, 1, 0, 1, 3, 2] =
      .ok ⟨MAGIC_BYTES, 1, 1, 3, 2⟩ := by decide

open SatishFormat SatishValidator in
/-- C3 (amended): for every 10-byte header blob with magic `"SATI"`,
width and height fields in `1..65535`, channels 3 and version `v > 1`,
`unpack_header` accepts the blob (it validates only `version ≥ 1`), while
`validate_header_data` on the resulting header returns a non-empty error
list containing the unsupported-version error. -/
theorem claim_C3_version_above_current (w hgt v : Nat)
    (hw1 : 1 ≤ w) (hw2 : w ≤ 65535) (hh1 : 1 ≤ hgt) (hh2 : hgt ≤ 65535)
    (hv : 2 ≤ v) :
    unpack_header (MAGIC_BYTES ++ [w / 256, w % 256, hgt / 256, hgt % 256, 3, v]) =
      .ok ⟨MAGIC_BYTES, w, hgt, 3, v⟩ ∧
    VErr.unsupportedVersion v CURRENT_VERSION ∈
      validate_header_data ⟨MAGIC_BYTES, w, hgt, 3, v⟩ ∧
    validate_header_data ⟨MAGIC_BYTES, w, hgt, 3, v⟩ ≠ [] := by
  have hpack : MAGIC_BYTES ++ [w / 256, w % 256, hgt / 256, hgt % 256, 3, v] =
      pack_header ⟨MAGIC_BYTES, w, hgt, 3, v⟩ := rfl
  have hval : validate_header_data ⟨MAGIC_BYTES, w, hgt, 3, v⟩ =
      [.unsupportedVersion v CURRENT_VERSION] := by
    unfold validate_header_data
    rw [if_neg (show ¬(SatishHeader.mk MAGIC_BYTES w hgt 3 v).magic ≠ MAGIC_BYTES from
          not_not_intro rfl),
      if_neg (show ¬¬(1 ≤ (SatishHeader.mk MAGIC_BYTES w hgt 3 v).width ∧
          (SatishHeader.mk MAGIC_BYTES w hgt 3 v).width ≤ MAX_WIDTH) from
          not_not_intro ⟨hw1, hw2⟩),
      if_neg (show ¬¬(1 ≤ (SatishHeader.mk MAGIC_BYTES w hgt 3 v).height ∧
          (SatishHeader.mk MAGIC_BYTES w hgt 3 v).height ≤ MAX_HEIGHT) from
          not_not_intro ⟨hh1, hh2⟩),
      if_neg (show ¬(SatishHeader.mk MAGIC_BYTES w hgt 3 v).channels ≠ 3 from
          not_not_intro rfl),
      if_neg (show ¬(SatishHeader.mk MAGIC_BYTES w hgt 3 v).version < 1 from by
          simp only []
          omega),
      if_pos (show (SatishHeader.mk MAGIC_BYTES w hgt 3 v).version > CURRENT_VERSION from by
          simp only [CURRENT_VERSION]
          omega)]
    rfl
  refine ⟨?_, ?_, ?_⟩
  · rw [hpack]
    exact unpack_pack_header hw1 hw2 hh1 hh2 (by omega)
  · rw [hval]
    exact List.mem_cons_self _ _
  · rw [hval]
    exact List.cons_ne_nil _ _

/-- Witness for C3 (amended) at width 1, height 1, version 2. -/
theorem claim_C3_version_above_current_witness :
    SatishFormat.unpack_header (SatishFormat.MAGIC_BYTES ++
      [1 / 256, 1 % 256, 1 / 256, 1 % 256, 3, 2]) =
      .ok ⟨SatishFormat.MAGIC_BYTES, 1, 1, 3, 2⟩ ∧
    SatishValidator.VErr.unsupportedVersion 2 SatishFormat.CURRENT_VERSION ∈
      SatishValidator.validate_header_data ⟨SatishFormat.MAGIC_BYTES, 1, 1, 3, 2⟩ ∧
    SatishValidator.validate_header_data ⟨SatishFormat.MAGIC_BYTES, 1, 1, 3, 2⟩ ≠ [] :=
  claim_C3_version_above_current 1 1 2 (by decide) (by decide) (by decide)
    (by decide) (by decide)

open SatishFormat SatishDecoder SatishValidator in
set_option maxRecDepth 8000 in
set_option maxHeartbeats 1000000 in
/-- C4: for every valid 2×2 SATISH file (34 bytes: header plus 24
lowercase-hex payload characters) with its last byte removed, the full
decode (`_load_satish_file`) fails with the `InvalidFormatError` whose
payload cites the pixel-data size mismatch (expected 24, got 23), while
`validate_file` on the same bytes returns (rather than raises) a result
with `valid = false` and that mismatch recorded in its error list (as the
"Validation failed: ..." entry wrapping the re-raised `PixelDataError`). -/
theorem claim_C4_truncated_pixel_data (payload : List Char)
    (hplen : payload.length = 24)
    (hhex : ∀ c ∈ payload, isLowerHexDigit c = true) :
    load_satish_file ((pack_header ⟨MAGIC_BYTES, 2, 2, 3, 1⟩ ++
        payload.map Char.toNat).dropLast) =
      .error (.pixelSizeMismatch 24 23) ∧
    Err.isInvalidFormatError (.pixelSizeMismatch 24 23) = true ∧
    (validate_file true ((pack_header ⟨MAGIC_BYTES, 2, 2, 3, 1⟩ ++
        payload.map Char.toNat).dropLast)).valid = false ∧
    (validate_file true ((pack_header ⟨MAGIC_BYTES, 2, 2, 3, 1⟩ ++
        payload.map Char.toNat).dropLast)).errors =
      [.validationFailed (.pixelDataSizeMismatchV 24 23)] := by
  have hne : payload.map Char.toNat ≠ [] := by
    intro hnil
    have := congrArg List.length hnil
    rw [List.length_map, hplen] at this
    simp at this
  have hdl : (pack_header ⟨MAGIC_BYTES, 2, 2, 3, 1⟩ ++
      payload.map Char.toNat).dropLast =
      pack_header ⟨MAGIC_BYTES, 2, 2, 3, 1⟩ ++
        payload.dropLast.map Char.toNat := by
    rw [List.dropLast_append_of_ne_nil _ hne, List.map_dropLast]
  have hplen' : payload.dropLast.length = 23 := by
    rw [List.length_dropLast, hplen]
  have hhex' : ∀ c ∈ payload.dropLast, isLowerHexDigit c = true :=
    fun c hc => hhex c (List.dropLast_subset payload hc)
  have hascii' : ∀ c ∈ payload.dropLast, c.toNat < 128 :=
    fun c hc => toNat_lt_of_lowerHex (hhex' c hc)
  have hmaplen : (payload.dropLast.map Char.toNat).length = 23 := by
    rw [List.length_map, hplen']
  have htake : (pack_header ⟨MAGIC_BYTES, 2, 2, 3, 1⟩ ++
      payload.dropLast.map Char.toNat).take HEADER_SIZE =
      pack_header ⟨MAGIC_BYTES, 2, 2, 3, 1⟩ :=
    List.take_left' (pack_header_mk_length 2 2 3 1)
  have hdrop : (pack_header ⟨MAGIC_BYTES, 2, 2, 3, 1⟩ ++
      payload.dropLast.map Char.toNat).drop HEADER_SIZE =
      payload.dropLast.map Char.toNat :=
    List.drop_left' (pack_header_mk_length 2 2 3 1)
  have hunpack : unpack_header ((pack_header ⟨MAGIC_BYTES, 2, 2, 3, 1⟩ ++
      payload.dropLast.map Char.toNat).take HEADER_SIZE) =
      .ok ⟨MAGIC_BYTES, 2, 2, 3, 1⟩ := by
    rw [htake]
    exact unpack_pack_header (by decide) (by decide) (by decide) (by decide) (by decide)
  have hcalc : calculate_pixel_data_size
      (SatishHeader.mk MAGIC_BYTES 2 2 3 1).width
      (SatishHeader.mk MAGIC_BYTES 2 2 3 1).height
      (SatishHeader.mk MAGIC_BYTES 2 2 3 1).channels = 24 := rfl
  have hdlen : (pack_header ⟨MAGIC_BYTES, 2, 2, 3, 1⟩ ++
      payload.dropLast.map Char.toNat).length = 33 := by
    rw [List.length_append, pack_header_mk_length, hmaplen]
  have h10 : 10 ≤ (pack_header ⟨MAGIC_BYTES, 2, 2, 3, 1⟩ ++
      payload.dropLast.map Char.toNat).length := by omega
  have hval : validate_header_data ⟨MAGIC_BYTES, 2, 2, 3, 1⟩ = [] :=
    validate_header_data_v1 (by decide) (by decide) (by decide) (by decide)
  rw [hdl]
  refine ⟨?_, rfl, ?_⟩
  · unfold load_satish_file
    rw [hunpack, hdrop]
    simp only [pyAsciiDecode_map hascii', hplen', hmaplen, hcalc]
    rw [if_pos (show (23 : Nat) ≠ 24 from by decide)]
  · have hmod : ((pack_header ⟨MAGIC_BYTES, 2, 2, 3, 1⟩ ++
        payload.dropLast.map Char.toNat).length - 10) % 6 ≠ 0 := by
      rw [hdlen]
      decide
    have hacc : (accessStage (pack_header ⟨MAGIC_BYTES, 2, 2, 3, 1⟩ ++
        payload.dropLast.map Char.toNat) ⟨false, [], [], VInfo.empty⟩).errors = [] := by
      rw [accessStage_large h10]
    have hhdr : headerStage (pack_header ⟨MAGIC_BYTES, 2, 2, 3, 1⟩ ++
        payload.dropLast.map Char.toNat)
        (structureStage (pack_header ⟨MAGIC_BYTES, 2, 2, 3, 1⟩ ++
          payload.dropLast.map Char.toNat)
          (extensionStage true (accessStage (pack_header ⟨MAGIC_BYTES, 2, 2, 3, 1⟩ ++
            payload.dropLast.map Char.toNat) ⟨false, [], [], VInfo.empty⟩))) =
        (some ⟨MAGIC_BYTES, 2, 2, 3, 1⟩,
          ⟨false, [], [.misalignedPixelData], ⟨some 33,
            some ⟨MAGIC_BYTES, 2, 2, 3, 1⟩, none, none, none⟩⟩) := by
      rw [accessStage_large h10, extensionStage_true,
        structureStage_misaligned h10 hmod, headerStage_of_ok hunpack hval, hdlen]
      rfl
    have hpix : pixelDataStage (pack_header ⟨MAGIC_BYTES, 2, 2, 3, 1⟩ ++
        payload.dropLast.map Char.toNat) ⟨MAGIC_BYTES, 2, 2, 3, 1⟩
        ⟨false, [], [.misalignedPixelData], ⟨some 33,
          some ⟨MAGIC_BYTES, 2, 2, 3, 1⟩, none, none, none⟩⟩ =
        .error (.pixelDataSizeMismatchV 24 23,
          ⟨false, [], [.misalignedPixelData], ⟨some 33,
            some ⟨MAGIC_BYTES, 2, 2, 3, 1⟩, none, none, none⟩⟩) := by
      rw [pixelDataStage_size_err (by
        rw [hdrop, hmaplen, hcalc]
        decide)]
      rw [hdrop, hmaplen, hcalc]
    rw [validate_file_pixel_err hacc hhdr hpix]
    exact ⟨rfl, rfl⟩

/-- Witness for C4 with the all-zeros 24-character payload. -/
theorem claim_C4_truncated_pixel_data_witness :
    SatishDecoder.load_satish_file
      ((SatishFormat.pack_header ⟨SatishFormat.MAGIC_BYTES, 2, 2, 3, 1⟩ ++
        (List.replicate 24 (Char.ofNat 48)).map Char.toNat).dropLast) =
      .error (.pixelSizeMismatch 24 23) ∧
    Err.isInvalidFormatError (.pixelSizeMismatch 24 23) = true ∧
    (SatishValidator.validate_file true
      ((SatishFormat.pack_header ⟨SatishFormat.MAGIC_BYTES, 2, 2, 3, 1⟩ ++
        (List.replicate 24 (Char.ofNat 48)).map Char.toNat).dropLast)).valid = false ∧
    (SatishValidator.validate_file true
      ((SatishFormat.pack_header ⟨SatishFormat.MAGIC_BYTES, 2, 2, 3, 1⟩ ++
        (List.replicate 24 (Char.ofNat 48)).map Char.toNat).dropLast)).errors =
      [.validationFailed (.pixelDataSizeMismatchV 24 23)] :=
  claim_C4_truncated_pixel_data (List.replicate 24 (Char.ofNat 48))
    (by decide) (by decide)

open SatishFormat SatishEncoder SatishDecoder SatishValidator in
set_option maxHeartbeats 1000000 in
/-- C5 (amended): for every valid SATISH file in which exactly one
6-character pixel group, at pixel index `i = pre.length`, is replaced by
`"zzzzzz"`: the full decode fails with the `DecodingError` raised by
`_parse_pixel_data`, which wraps the `InvalidFormatError` for that group
(`"Invalid hex color: zzzzzz"`), and the validation pixel-data stage —
which samples only the first 10 pixel groups and stops at the first
malformed sample group — records the hex-format error for that group if
and only if `i < 10` (the error list of the whole validation equals the
singleton `"Pixel i: Invalid hex characters in: zzzzzz"` entry when
`i < 10` and is empty otherwise). -/
theorem claim_C5_corrupted_hex_group (w hgt : Nat) (pre post : List Pixel)
    (hw1 : 1 ≤ w) (hw2 : w ≤ 65535) (hh1 : 1 ≤ hgt) (hh2 : hgt ≤ 65535)
    (hcount : pre.length + 1 + post.length = w * hgt)
    (hpre : ∀ p ∈ pre, pixelInRange p) (hpost : ∀ p ∈ post, pixelInRange p) :
    load_satish_file (pack_header ⟨MAGIC_BYTES, w, hgt, 3, 1⟩ ++
      (((convert_pixels_to_hex pre).flatten ++ (zzGroup ++
        (convert_pixels_to_hex post).flatten)).map Char.toNat)) =
      .error (.decodingFailed (.invalidHexColor zzGroup)) ∧
    (validate_file true (pack_header ⟨MAGIC_BYTES, w, hgt, 3, 1⟩ ++
      (((convert_pixels_to_hex pre).flatten ++ (zzGroup ++
        (convert_pixels_to_hex post).flatten)).map Char.toNat))).errors =
      (if pre.length < 10 then
        [.pixelHexError pre.length (.badChars zzGroup)] else []) := by
  have hA : (convert_pixels_to_hex pre).flatten.length = 6 * pre.length :=
    flatten_hex_length hpre
  have hB : (convert_pixels_to_hex post).flatten.length = 6 * post.length :=
    flatten_hex_length hpost
  have hzlen : zzGroup.length = 6 := rfl
  have hplen : ((convert_pixels_to_hex pre).flatten ++ (zzGroup ++
      (convert_pixels_to_hex post).flatten)).length = w * hgt * 6 := by
    rw [List.length_append, List.length_append, hA, hB, hzlen]
    omega
  have hhexA : ∀ c ∈ (convert_pixels_to_hex pre).flatten, isLowerHexDigit c = true :=
    flatten_hex_lowerHex hpre
  have hhexB : ∀ c ∈ (convert_pixels_to_hex post).flatten, isLowerHexDigit c = true :=
    flatten_hex_lowerHex hpost
  have hascii : ∀ c ∈ (convert_pixels_to_hex pre).flatten ++ (zzGroup ++
      (convert_pixels_to_hex post).flatten), c.toNat < 128 := by
    intro c hc
    rw [List.mem_append] at hc
    rcases hc with hc | hc
    · exact toNat_lt_of_lowerHex (hhexA c hc)
    · rw [List.mem_append] at hc
      rcases hc with hc | hc
      · rw [zzGroup, List.mem_replicate] at hc
        rw [hc.2]
        decide
      · exact toNat_lt_of_lowerHex (hhexB c hc)
  have htake : (pack_header ⟨MAGIC_BYTES, w, hgt, 3, 1⟩ ++
      (((convert_pixels_to_hex pre).flatten ++ (zzGroup ++
        (convert_pixels_to_hex post).flatten)).map Char.toNat)).take HEADER_SIZE =
      pack_header ⟨MAGIC_BYTES, w, hgt, 3, 1⟩ :=
    List.take_left' (pack_header_mk_length w hgt 3 1)
  have hdrop : (pack_header ⟨MAGIC_BYTES, w, hgt, 3, 1⟩ ++
      (((convert_pixels_to_hex pre).flatten ++ (zzGroup ++
        (convert_pixels_to_hex post).flatten)).map Char.toNat)).drop HEADER_SIZE =
      ((convert_pixels_to_hex pre).flatten ++ (zzGroup ++
        (convert_pixels_to_hex post).flatten)).map Char.toNat :=
    List.drop_left' (pack_header_mk_length w hgt 3 1)
  have hunpack : unpack_header ((pack_header ⟨MAGIC_BYTES, w, hgt, 3, 1⟩ ++
      (((convert_pixels_to_hex pre).flatten ++ (zzGroup ++
        (convert_pixels_to_hex post).flatten)).map Char.toNat)).take HEADER_SIZE) =
      .ok ⟨MAGIC_BYTES, w, hgt, 3, 1⟩ := by
    rw [htake]
    exact unpack_pack_header hw1 hw2 hh1 hh2 (le_refl 1)
  have hparse : parse_pixel_data ((convert_pixels_to_hex pre).flatten ++ (zzGroup ++
      (convert_pixels_to_hex post).flatten)) =
      .error (.decodingFailed (.invalidHexColor zzGroup)) := by
    unfold parse_pixel_data
    rw [parse_groups_zz hpre _ _ (by
      rw [hplen]
      omega)]
  constructor
  · unfold load_satish_file
    rw [hunpack, hdrop]
    simp only [pyAsciiDecode_map hascii, hplen, calculate_pixel_data_size,
      HEX_CHARS_PER_PIXEL, ne_eq, not_true_eq_false, ite_false, if_false, hparse]
  · have hdlen : (pack_header ⟨MAGIC_BYTES, w, hgt, 3, 1⟩ ++
        (((convert_pixels_to_hex pre).flatten ++ (zzGroup ++
          (convert_pixels_to_hex post).flatten)).map Char.toNat)).length =
        10 + w * hgt * 6 := by
      rw [List.length_append, pack_header_mk_length, List.length_map, hplen]
    have h10 : 10 ≤ (pack_header ⟨MAGIC_BYTES, w, hgt, 3, 1⟩ ++
        (((convert_pixels_to_hex pre).flatten ++ (zzGroup ++
          (convert_pixels_to_hex post).flatten)).map Char.toNat)).length := by
      omega
    have hmod : ((pack_header ⟨MAGIC_BYTES, w, hgt, 3, 1⟩ ++
        (((convert_pixels_to_hex pre).flatten ++ (zzGroup ++
          (convert_pixels_to_hex post).flatten)).map Char.toNat)).length - 10) % 6
        = 0 := by
      rw [hdlen]
      omega
    have hval : validate_header_data ⟨MAGIC_BYTES, w, hgt, 3, 1⟩ = [] :=
      validate_header_data_v1 hw1 hw2 hh1 hh2
    have hacc : (accessStage (pack_header ⟨MAGIC_BYTES, w, hgt, 3, 1⟩ ++
        (((convert_pixels_to_hex pre).flatten ++ (zzGroup ++
          (convert_pixels_to_hex post).flatten)).map Char.toNat))
        ⟨false, [], [], VInfo.empty⟩).errors = [] := by
      rw [accessStage_large h10]
    have hhdr : headerStage (pack_header ⟨MAGIC_BYTES, w, hgt, 3, 1⟩ ++
        (((convert_pixels_to_hex pre).flatten ++ (zzGroup ++
          (convert_pixels_to_hex post).flatten)).map Char.toNat))
        (structureStage (pack_header ⟨MAGIC_BYTES, w, hgt, 3, 1⟩ ++
          (((convert_pixels_to_hex pre).flatten ++ (zzGroup ++
            (convert_pixels_to_hex post).flatten)).map Char.toNat))
          (extensionStage true (accessStage (pack_header ⟨MAGIC_BYTES, w, hgt, 3, 1⟩ ++
            (((convert_pixels_to_hex pre).flatten ++ (zzGroup ++
              (convert_pixels_to_hex post).flatten)).map Char.toNat))
            ⟨false, [], [], VInfo.empty⟩))) =
        (some ⟨MAGIC_BYTES, w, hgt, 3, 1⟩,
          ⟨false, [], [], ⟨some (10 + w * hgt * 6),
            some ⟨MAGIC_BYTES, w, hgt, 3, 1⟩, none, none, none⟩⟩) := by
      rw [accessStage_large h10, extensionStage_true, structureStage_aligned h10 hmod,
        headerStage_of_ok hunpack hval, hdlen]
      rfl
    by_cases hi : pre.length < 10
    · have hsample : ((convert_pixels_to_hex pre).flatten ++ (zzGroup ++
          (convert_pixels_to_hex post).flatten)).take 60 =
          (convert_pixels_to_hex pre).flatten ++ (zzGroup ++
            (convert_pixels_to_hex post).flatten.take
              (60 - (convert_pixels_to_hex pre).flatten.length - zzGroup.length)) := by
        rw [List.take_append_eq_append_take,
          List.take_of_length_le (show (convert_pixels_to_hex pre).flatten.length ≤ 60 by
            rw [hA]
            omega),
          List.take_append_eq_append_take,
          List.take_of_length_le (show zzGroup.length ≤
            60 - (convert_pixels_to_hex pre).flatten.length by
            rw [hzlen, hA]
            omega)]
      have hscan : scan_chunks ((((convert_pixels_to_hex pre).flatten ++ (zzGroup ++
          (convert_pixels_to_hex post).flatten)).take 60).length) 0
          (((convert_pixels_to_hex pre).flatten ++ (zzGroup ++
            (convert_pixels_to_hex post).flatten)).take 60) =
          some (pre.length, [.badChars zzGroup]) := by
        rw [hsample, scan_chunks_zz hpre _ _ 0 (by
          rw [List.length_append, List.length_append, hA, hzlen]
          omega)]
        rw [Nat.zero_add]
      have hpix : pixelDataStage (pack_header ⟨MAGIC_BYTES, w, hgt, 3, 1⟩ ++
          (((convert_pixels_to_hex pre).flatten ++ (zzGroup ++
            (convert_pixels_to_hex post).flatten)).map Char.toNat))
          ⟨MAGIC_BYTES, w, hgt, 3, 1⟩
          ⟨false, [], [], ⟨some (10 + w * hgt * 6),
            some ⟨MAGIC_BYTES, w, hgt, 3, 1⟩, none, none, none⟩⟩ =
          .ok ⟨false, [.pixelHexError pre.length (.badChars zzGroup)], [],
            ⟨some (10 + w * hgt * 6), some ⟨MAGIC_BYTES, w, hgt, 3, 1⟩,
              some (w * hgt * 6), some (w * hgt), none⟩⟩ := by
        rw [pixelDataStage_of_payload hdrop hplen hascii hscan]
        rfl
      rw [validate_file_pixel_ok hacc hhdr hpix, integrityStage_eval, if_pos hi]
    · have hsample : ((convert_pixels_to_hex pre).flatten ++ (zzGroup ++
          (convert_pixels_to_hex post).flatten)).take 60 =
          (convert_pixels_to_hex pre).flatten.take 60 :=
        List.take_append_of_le_length (by
          rw [hA]
          omega)
      have hscan : scan_chunks ((((convert_pixels_to_hex pre).flatten ++ (zzGroup ++
          (convert_pixels_to_hex post).flatten)).take 60).length) 0
          (((convert_pixels_to_hex pre).flatten ++ (zzGroup ++
            (convert_pixels_to_hex post).flatten)).take 60) = none := by
        rw [hsample]
        exact scan_chunks_clean _
          (fun c hc => hhexA c (List.take_subset 60 _ hc)) 0
      have hpix : pixelDataStage (pack_header ⟨MAGIC_BYTES, w, hgt, 3, 1⟩ ++
          (((convert_pixels_to_hex pre).flatten ++ (zzGroup ++
            (convert_pixels_to_hex post).flatten)).map Char.toNat))
          ⟨MAGIC_BYTES, w, hgt, 3, 1⟩
          ⟨false, [], [], ⟨some (10 + w * hgt * 6),
            some ⟨MAGIC_BYTES, w, hgt, 3, 1⟩, none, none, none⟩⟩ =
          .ok ⟨false, [], [],
            ⟨some (10 + w * hgt * 6), some ⟨MAGIC_BYTES, w, hgt, 3, 1⟩,
              some (w * hgt * 6), some (w * hgt), none⟩⟩ := by
        rw [pixelDataStage_of_payload hdrop hplen hascii hscan]
      rw [validate_file_pixel_ok hacc hhdr hpix, integrityStage_eval, if_neg hi]

/-- Witness for C5 at a 1×2 image with the first group corrupted
(`pre = []`, `post = [(0, 0, 0)]`, so the corrupted index 0 is inside the
sampled window). -/
theorem claim_C5_corrupted_hex_group_witness :
    SatishDecoder.load_satish_file
      (SatishFormat.pack_header ⟨SatishFormat.MAGIC_BYTES, 1, 2, 3, 1⟩ ++
        (((SatishEncoder.convert_pixels_to_hex []).flatten ++ (zzGroup ++
          (SatishEncoder.convert_pixels_to_hex [((0 : Int), 0, 0)]).flatten)).map
            Char.toNat)) =
      .error (.decodingFailed (.invalidHexColor zzGroup)) ∧
    (SatishValidator.validate_file true
      (SatishFormat.pack_header ⟨SatishFormat.MAGIC_BYTES, 1, 2, 3, 1⟩ ++
        (((SatishEncoder.convert_pixels_to_hex []).flatten ++ (zzGroup ++
          (SatishEncoder.convert_pixels_to_hex [((0 : Int), 0, 0)]).flatten)).map
            Char.toNat))).errors =
      (if List.length ([] : List Pixel) < 10 then
        [.pixelHexError (List.length ([] : List Pixel)) (.badChars zzGroup)]
      else []) :=
  claim_C5_corrupted_hex_group 1 2 [] [((0 : Int), 0, 0)] (by decide) (by decide)
    (by decide) (by decide) (by decide) (by decide) (by decide)

open SatishFormat SatishDecoder in
/-- C5 counterexample: decode of a 1×2 file whose first pixel group is
`"zzzzzz"` raises the `DecodingError` wrapper produced by
`_parse_pixel_data` (whose `except Exception` clause catches its own
`InvalidFormatError` and re-raises `DecodingError`), which is not an
`InvalidFormatError` (`DecodingError` subclasses only `SatishError`), so
the full decode does not fail with an `InvalidFormatError` as claimed. -/
theorem claim_C5_counterexample :
    load_satish_file
      ([83, 65, 84, 73, 0, 1, 0, 2, 3, 1] ++
        (zzGroup.map Char.toNat ++ List.replicate 6 48)) =
      .error (.decodingFailed (.invalidHexColor zzGroup)) ∧
    Err.isInvalidFormatError (.decodingFailed (.invalidHexColor zzGroup)) = false := by
  decide

open SatishFormat in
/-- C6: each of width 0, height 0, width 65536, channels 0, channels 4 and
version 0 (the remaining arguments valid) makes `create_header` fail with
the `InvalidFormatError` naming the offending field and value (carried by
the error constructor), and no header is returned. -/
theorem claim_C6_boundary_rejection :
    create_header 0 1 3 1 = .error (.widthOutOfRange 0) ∧
    create_header 1 0 3 1 = .error (.heightOutOfRange 0) ∧
    create_header 65536 1 3 1 = .error (.widthOutOfRange 65536) ∧
    create_header 1 1 0 1 = .error (.unsupportedChannelsCreate 0) ∧
    create_header 1 1 4 1 = .error (.unsupportedChannelsCreate 4) ∧
    create_header 1 1 3 0 = .error (.versionTooSmall 0) := by decide

open SatishFormat in
/-- C7: for every header produced by `create_header` (so
`1 ≤ width, height ≤ 65535`, channels 3, version in `1..255`),
`pack_header` emits exactly the 4 magic bytes, the big-endian width and
height, the channels byte and the version byte — 10 bytes in all — and
`unpack_header` on those bytes returns the identical header. -/
theorem claim_C7_pack_unpack_roundtrip (w hgt v : Nat)
    (hw1 : 1 ≤ w) (hw2 : w ≤ 65535) (hh1 : 1 ≤ hgt) (hh2 : hgt ≤ 65535)
    (hv1 : 1 ≤ v) (hv2 : v ≤ 255) :
    ∃ hdr, create_header w hgt 3 v = .ok hdr ∧
      pack_header hdr = MAGIC_BYTES ++
        [w / 256, w % 256, hgt / 256, hgt % 256, 3, v] ∧
      (pack_header hdr).length = 10 ∧
      unpack_header (pack_header hdr) = .ok hdr :=
  ⟨⟨MAGIC_BYTES, w, hgt, 3, v⟩, create_header_ok hw1 hw2 hh1 hh2 hv1, rfl,
    pack_header_mk_length w hgt 3 v, unpack_pack_header hw1 hw2 hh1 hh2 hv1⟩

/-- Witness for C7 at width 2, height 3, version 1. -/
theorem claim_C7_pack_unpack_roundtrip_witness :
    ∃ hdr, SatishFormat.create_header 2 3 3 1 = .ok hdr ∧
      SatishFormat.pack_header hdr = SatishFormat.MAGIC_BYTES ++
        [2 / 256, 2 % 256, 3 / 256, 3 % 256, 3, 1] ∧
      (SatishFormat.pack_header hdr).length = 10 ∧
      SatishFormat.unpack_header (SatishFormat.pack_header hdr) = .ok hdr :=
  claim_C7_pack_unpack_roundtrip 2 3 1 (by decide) (by decide) (by decide)
    (by decide) (by decide) (by decide)

open SatishFormat in
/-- C8: for every byte sequence of length at least 10 whose first 4 bytes
are not `"SATI"`, `unpack_header` fails with the `InvalidFormatError`
carrying the offending 4 bytes, before any other field is examined (the
result is the magic error whatever the remaining bytes hold). -/
theorem claim_C8_magic_mismatch (data : List Nat) (hlen : 10 ≤ data.length)
    (hmagic : data.take 4 ≠ MAGIC_BYTES) :
    unpack_header data = .error (.invalidMagicBytes MAGIC_BYTES (data.take 4)) := by
  unfold unpack_header
  rw [if_neg (show ¬(data.length < HEADER_SIZE) from by
    unfold HEADER_SIZE
    omega)]
  simp only [if_pos hmagic]

/-- Witness for C8: 10 bytes starting with `"XATI"`. -/
theorem claim_C8_magic_mismatch_witness :
    SatishFormat.unpack_header [88, 65, 84, 73, 0, 1, 0, 1, 3, 1] =
      .error (.invalidMagicBytes SatishFormat.MAGIC_BYTES
        ([88, 65, 84, 73, 0, 1, 0, 1, 3, 1].take 4)) :=
  claim_C8_magic_mismatch [88, 65, 84, 73, 0, 1, 0, 1, 3, 1] (by decide) (by decide)

open SatishFormat SatishEncoder SatishDecoder in
/-- C9: encoding the single white pixel at 1×1 produces exactly the 16
bytes `"SATI"`, `0x00 0x01`, `0x00 0x01`, `0x03`, `0x01`, `"ffffff"`
(102 is the byte of `'f'`), and decoding those 16 bytes returns the header
`⟨"SATI", 1, 1, 3, 1⟩` with pixel list `[(255, 255, 255)]`. -/
theorem claim_C9_minimal_white_pixel :
    encode_from_array [((255 : Int), 255, 255)] 1 1 =
      .ok [83, 65, 84, 73, 0, 1, 0, 1, 3, 1, 102, 102, 102, 102, 102, 102] ∧
    load_satish_file [83, 65, 84, 73, 0, 1, 0, 1, 3, 1, 102, 102, 102, 102, 102, 102] =
      .ok (⟨MAGIC_BYTES, 1, 1, 3, 1⟩, [((255 : Int), 255, 255)]) := by decide

open SatishFormat SatishEncoder in
/-- C10: `encode_from_array` validates only the pixel count, not the
component values: the buffer `[(256, 0, 0)]` at 1×1 encodes without error
(256 renders as the three characters `"100"`), yet the pixel-data section
of the output is 7 bytes, not `1 * 1 * 6`, so the output is not a
well-formed SATISH file. -/
theorem claim_C10_component_out_of_range_encodes :
    encode_from_array [((256 : Int), 0, 0)] 1 1 =
      .ok ([83, 65, 84, 73, 0, 1, 0, 1, 3, 1] ++ [49, 48, 48, 48, 48, 48, 48]) ∧
    (([83, 65, 84, 73, 0, 1, 0, 1, 3, 1] ++
      [49, 48, 48, 48, 48, 48, 48] : List Nat).drop HEADER_SIZE).length ≠
      1 * 1 * HEX_CHARS_PER_PIXEL := by decide

end Satish
